import Mathlib

/-!
A verification development for `differometor/setups.py`: a shallow embedding
of the graph-construction engine (`Setup.add`, `Setup.space`), the parameter
extractor, the constraint grouper (`constrain_inter_grid_cell_spaces`) and the
serializer (`differometor_to_finesse`), together with theorems settling the
specification's claims about them.

Python dictionaries are modelled as insertion-ordered association lists,
Python numbers as tagged int/rational values (floats are carried as exact
rationals), and Python exceptions as explicit error results.  Because the
Python methods mutate `self` in place and an exception aborts only the call,
`add`/`space` return the (possibly partially mutated) state *together with*
the error that was raised, if any.
-/

set_option maxRecDepth 4000

namespace Differometor

/-- A Python value stored in a property dictionary: an int, a float
(modelled as the exact rational the computation denotes), or a derived-value
marker tuple such as `("l0_power", jnp.sqrt)` (source reference, transform name). -/
inductive Val where
  | int : Int → Val
  | float : ℚ → Val
  | derived : String → String → Val
deriving DecidableEq, Repr

abbrev Dict := List (String × Val)

/-- Python dict lookup `d[k]` / `d.get(k)` over an insertion-ordered association list. -/
def alookup {α : Type} {β : Type} [DecidableEq α] (k : α) : List (α × β) → Option β
  | [] => none
  | p :: rest => if p.1 = k then some p.2 else alookup k rest

/-- Python dict assignment `d[k] = v`: an existing key keeps its insertion
position and gets the new value; a new key is appended at the end. -/
def assocSet {α : Type} {β : Type} [DecidableEq α] (l : List (α × β)) (k : α) (v : β) :
    List (α × β) :=
  if (alookup k l).isSome then l.map (fun p => if p.1 = k then (p.1, v) else p)
  else l ++ [(k, v)]

/-- In-place update of the value stored at key `k` (the key is present at call sites). -/
def assocModify {α : Type} {β : Type} [DecidableEq α] (l : List (α × β)) (k : α) (f : β → β) :
    List (α × β) :=
  l.map (fun p => if p.1 = k then (p.1, f p.2) else p)

/-- Python dict merge `\x7b**base, **upd\x7d`: base keys keep their insertion order with
values overridden by `upd` where present; keys only in `upd` are appended in `upd` order. -/
def dictMerge (base upd : Dict) : Dict :=
  base.map (fun p => match alookup p.1 upd with | some v => (p.1, v) | none => p) ++
    upd.filter (fun p => (alookup p.1 base).isNone)

/-- Python `c in s` for a single character. -/
def pyIn (c : Char) (s : String) : Bool := s.data.any (fun d => d = c)

/-- `leadsWith pat l` is true when `pat` is an initial segment of `l`. -/
def leadsWith {α : Type} [DecidableEq α] : List α → List α → Bool
  | [], _ => true
  | _ :: _, [] => false
  | a :: as, b :: bs => a = b && leadsWith as bs

/-- Helper for the Python substring test: does `pat` occur in the char list? -/
def strContainsAux (pat : List Char) : List Char → Bool
  | [] => pat.isEmpty
  | c :: rest => leadsWith pat (c :: rest) || strContainsAux pat rest

/-- Python substring test `pat in s`. -/
def strContains (s pat : String) : Bool := strContainsAux pat.data s.data

/-- Helper for Python `s.split('_')`, accumulating the current segment reversed. -/
def splitUAux : List Char → List Char → List String
  | [], acc => [String.mk acc.reverse]
  | c :: rest, acc =>
      if c = '_' then String.mk acc.reverse :: splitUAux rest []
      else splitUAux rest (c :: acc)

/-- Python `s.split('_')` (always returns at least one segment). -/
def splitU (s : String) : List String := splitUAux s.data []

/-- The errors `Setup.add`/`Setup.space` raise (all `ValueError`s in the source,
distinguished here by their message site), plus the arithmetic errors Python can
raise inside the reflectivity pre-pass (`ZeroDivisionError`, `TypeError`) and the
tuple-unpack `ValueError` raised inside `Edges.__getitem__` when a compound edge
name does not split into exactly two parts. -/
inductive SetupError where
  | naming : String → SetupError
  | conflict : SetupError
  | unknownComponent : String → SetupError
  | schemaMismatch : String → SetupError
  | unresolvedReference : String → SetupError
  | invalidEnum : String → SetupError
  | unpack : SetupError
  | zeroDivision : SetupError
  | typeError : SetupError
deriving DecidableEq, Repr

/-- A node record as stored by `Setup.add`: component kind, property dict, and
the optional keys that later statements of `add` may set. -/
structure NodeData where
  component : String
  properties : Dict
  target : Option String
  target_property : Option String
  port : Option String
  direction : Option String
  auxiliary : Option Bool
  detector1 : Option String
  detector2 : Option String
deriving DecidableEq, Repr

/-- An edge record as stored by `Setup.space`. -/
structure EdgeData where
  properties : Dict
  source_port : String
  target_port : String
deriving DecidableEq, Repr

deriving instance DecidableEq for Except

abbrev NodeList := List (String × NodeData)
abbrev EdgeList := List ((String × String) × EdgeData)

/-- The graph store plus the accumulated ordered parameter list. -/
structure Setup where
  parameters : List (String × String)
  nodes : NodeList
  edges : EdgeList
deriving DecidableEq, Repr

/-- `Setup.__init__`: empty store, empty parameter list. -/
def Setup.empty : Setup := ⟨[], [], []⟩

/-- `Setup.default_properties` from `Setup.__init__`: the per-component-kind
default property records, in source order; `none` for an unknown kind. -/
def default_properties : String → Option Dict
  | "frequency" => some [("frequency", .int 1)]
  | "laser" => some [("power", .float (mkRat 1 1)), ("phase", .float (mkRat 0 1))]
  | "squeezer" => some [("db", .int 0), ("angle", .int 90)]
  | "mirror" => some [("loss", .float (mkRat 5 1000000)),
      ("reflectivity", .float (mkRat 1 2)), ("tuning", .float (mkRat 0 1))]
  | "beamsplitter" => some [("loss", .float (mkRat 5 1000000)),
      ("reflectivity", .float (mkRat 1 2)), ("tuning", .float (mkRat 0 1)),
      ("alpha", .float (mkRat 45 1))]
  | "free_mass" => some [("mass", .float (mkRat 40 1))]
  | "signal" => some [("amplitude", .float (mkRat 1 1)), ("phase", .float (mkRat 0 1))]
  | "space" => some [("length", .int 0), ("refractive_index", .float (mkRat 1 1))]
  | "detector" => some []
  | "qnoised" => some []
  | "qhd" => some [("phase", .int 0)]
  | "nothing" => some []
  | "directional_beamsplitter" => some []
  | _ => none

/-- The numeric value of a `Val`; `none` for the derived-marker tuples, on which
Python arithmetic raises `TypeError`. -/
def valToQ : Val → Option ℚ
  | .int n => some (n : ℚ)
  | .float q => some q
  | .derived _ _ => none

/-- Lines 88-97 of `Setup.add`: the mirror/beamsplitter reflectivity and
transmissivity pre-pass.  If both are supplied the call conflicts; if
transmissivity is supplied, properties are merged with the defaults, the
transmissivity is popped and the reflectivity `(1 - t - loss) / (1 - loss)`
stored; if only reflectivity is supplied it is rescaled to `r / (1 - loss)`. -/
def addPrePass (component : String) (properties : Dict) : Except SetupError Dict :=
  if component = "mirror" ∨ component = "beamsplitter" then
    if (alookup "reflectivity" properties).isSome ∧ (alookup "transmissivity" properties).isSome
    then .error .conflict
    else if (alookup "transmissivity" properties).isSome then
      let props := dictMerge ((default_properties component).getD []) properties
      match valToQ ((alookup "transmissivity" props).getD (.int 0)),
            valToQ ((alookup "loss" props).getD (.int 0)) with
      | some t, some l =>
          if (1 : ℚ) - l = 0 then .error .zeroDivision
          else .ok (assocSet (props.filter (fun p => p.1 ≠ "transmissivity")) "reflectivity"
            (.float ((1 - t - l) / (1 - l))))
      | _, _ => .error .typeError
    else if (alookup "reflectivity" properties).isSome then
      let props := dictMerge ((default_properties component).getD []) properties
      match valToQ ((alookup "reflectivity" props).getD (.int 0)),
            valToQ ((alookup "loss" props).getD (.int 0)) with
      | some r, some l =>
          if (1 : ℚ) - l = 0 then .error .zeroDivision
          else .ok (assocSet props "reflectivity" (.float (r / (1 - l))))
      | _, _ => .error .typeError
    else .ok properties
  else .ok properties

/-- Lines 85-105 of `Setup.add`: the validation pre-pass that runs before any
state is mutated — naming check, reflectivity pre-pass, defaults merge, and
the schema-size check; returns the final merged property dict. -/
def addValidate (component name : String) (properties : Dict) : Except SetupError Dict :=
  if pyIn '_' name then .error (.naming name)
  else match addPrePass component properties with
  | .error e => .error e
  | .ok props =>
    match default_properties component with
    | none => .error (.unknownComponent component)
    | some defaults =>
      if (dictMerge defaults props).length ≠ defaults.length then
        .error (.schemaMismatch component)
      else .ok (dictMerge defaults props)

/-- Lines 114-134 of `Setup.add`: target resolution, run after the node record
was stored (so `ns` already contains the node being added).  A compound name
whose last segment is `amplitude`/`frequency` is a node pseudo-property
reference; any other compound name must be an existing edge's compound name;
a plain name must be an existing node. -/
def applyTarget (ns : NodeList) (es : EdgeList) (name : String) :
    Option String → NodeList × Option SetupError
  | none => (ns, none)
  | some t =>
    if pyIn '_' t then
      let parts := splitU t
      if ¬ (parts.getLastD "" = "amplitude" ∨ parts.getLastD "" = "frequency") then
        match parts with
        | [a, b] =>
            if (alookup (a, b) es).isSome then
              (assocModify ns name (fun nd => { nd with target := some t }), none)
            else (ns, some (.unresolvedReference t))
        | _ => (ns, some .unpack)
      else
        if (alookup (parts.headD "") ns).isSome then
          (assocModify ns name (fun nd =>
            { nd with target := some (parts.headD ""),
                      target_property := some (parts.getLastD "") }), none)
        else (ns, some (.unresolvedReference (parts.headD "")))
    else
      if (alookup t ns).isSome then
        (assocModify ns name (fun nd => { nd with target := some t }), none)
      else (ns, some (.unresolvedReference t))

/-- Lines 136-139 of `Setup.add`: port validation against the port enumeration. -/
def applyPort (ns : NodeList) (name : String) : Option String → NodeList × Option SetupError
  | none => (ns, none)
  | some p =>
      if p = "left" ∨ p = "top" ∨ p = "right" ∨ p = "bottom" then
        (assocModify ns name (fun nd => { nd with port := some p }), none)
      else (ns, some (.invalidEnum p))

/-- Lines 141-144 of `Setup.add`: direction validation. -/
def applyDirection (ns : NodeList) (name : String) : Option String → NodeList × Option SetupError
  | none => (ns, none)
  | some d =>
      if d = "in" ∨ d = "out" then
        (assocModify ns name (fun nd => { nd with direction := some d }), none)
      else (ns, some (.invalidEnum d))

/-- Lines 146-149 of `Setup.add`: the auxiliary flag; with `Bool` arguments the
membership test `auxiliary in [True, False]` always passes. -/
def applyAuxiliary (ns : NodeList) (name : String) : Option Bool → NodeList × Option SetupError
  | none => (ns, none)
  | some b => (assocModify ns name (fun nd => { nd with auxiliary := some b }), none)

/-- Lines 151-154 of `Setup.add`: `detector1` must be an existing node name. -/
def applyDetector1 (ns : NodeList) (name : String) : Option String → NodeList × Option SetupError
  | none => (ns, none)
  | some d =>
      if (alookup d ns).isSome then
        (assocModify ns name (fun nd => { nd with detector1 := some d }), none)
      else (ns, some (.unresolvedReference d))

/-- Lines 156-159 of `Setup.add`: `detector2` must be an existing node name. -/
def applyDetector2 (ns : NodeList) (name : String) : Option String → NodeList × Option SetupError
  | none => (ns, none)
  | some d =>
      if (alookup d ns).isSome then
        (assocModify ns name (fun nd => { nd with detector2 := some d }), none)
      else (ns, some (.unresolvedReference d))

/-- The reference-resolution tail of `Setup.add` (lines 114-159), applied in
source order to the node store after the node record was committed. -/
def addRefs (ns : NodeList) (es : EdgeList) (name : String)
    (target port direction : Option String) (auxiliary : Option Bool)
    (detector1 detector2 : Option String) : NodeList × Option SetupError :=
  match applyTarget ns es name target with
  | (ns1, some e) => (ns1, some e)
  | (ns1, none) =>
    match applyPort ns1 name port with
    | (ns2, some e) => (ns2, some e)
    | (ns2, none) =>
      match applyDirection ns2 name direction with
      | (ns3, some e) => (ns3, some e)
      | (ns3, none) =>
        match applyAuxiliary ns3 name auxiliary with
        | (ns4, some e) => (ns4, some e)
        | (ns4, none) =>
          match applyDetector1 ns4 name detector1 with
          | (ns5, some e) => (ns5, some e)
          | (ns5, none) => applyDetector2 ns5 name detector2

/-- `Setup.add`.  Returns the state of the object after the call together with
the error raised, if any: in the source the node record and the parameter
entries are committed (lines 106-112) *before* target/port/direction/detector
validation, so an error raised there leaves them in place. -/
def Setup.add (S : Setup) (component name : String) (optimizable : Bool)
    (target port direction : Option String) (auxiliary : Option Bool)
    (detector1 detector2 : Option String) (properties : Dict) :
    Setup × Option SetupError :=
  match addValidate component name properties with
  | .error e => (S, some e)
  | .ok props =>
    match addRefs
        (assocSet S.nodes name (NodeData.mk component props none none none none none none none))
        S.edges name target port direction auxiliary detector1 detector2 with
    | (ns1, err) =>
        (⟨if ¬ component = "signal" ∧ ¬ component = "frequency" ∧ optimizable then
            S.parameters ++ props.map (fun p => (name, p.1))
          else S.parameters, ns1, S.edges⟩, err)

/-- `Setup.space`: both endpoints must exist, properties merge onto the space
defaults with the same schema-size check, optimizable properties are appended
to the parameter list under the compound name `source_target`, and the edge is
stored keyed by the ordered endpoint pair. -/
def Setup.space (S : Setup) (source target : String) (optimizable : Bool)
    (source_port target_port : String) (properties : Dict) :
    Setup × Option SetupError :=
  if (alookup source S.nodes).isNone then (S, some (.unresolvedReference source))
  else if (alookup target S.nodes).isNone then (S, some (.unresolvedReference target))
  else if (dictMerge ((default_properties "space").getD []) properties).length ≠
      ((default_properties "space").getD []).length then (S, some (.schemaMismatch "space"))
  else
    (⟨if optimizable then
        S.parameters ++ (dictMerge ((default_properties "space").getD []) properties).map
          (fun p => (source ++ "_" ++ target, p.1))
      else S.parameters,
      S.nodes,
      assocSet S.edges (source, target)
        (EdgeData.mk (dictMerge ((default_properties "space").getD []) properties)
          source_port target_port)⟩, none)

/-- One construction call, with every argument of the source signature. -/
inductive Call where
  | addC : (component name : String) → (optimizable : Bool) →
      (target port direction : Option String) → (auxiliary : Option Bool) →
      (detector1 detector2 : Option String) → (properties : Dict) → Call
  | spaceC : (source target : String) → (optimizable : Bool) →
      (source_port target_port : String) → (properties : Dict) → Call
deriving DecidableEq, Repr

/-- Run one construction call. -/
def runCall (S : Setup) : Call → Setup × Option SetupError
  | .addC c n opt t p d aux d1 d2 props => S.add c n opt t p d aux d1 d2 props
  | .spaceC s t opt sp tp props => S.space s t opt sp tp props

/-- Run a call sequence, succeeding only when every call succeeds. -/
def runCallsOk (S : Setup) : List Call → Option Setup
  | [] => some S
  | c :: cs =>
    match runCall S c with
    | (S', none) => runCallsOk S' cs
    | (_, some _) => none

/-! ### Number formatting

The serializer interpolates property values into f-strings, so the embedding
needs a model of CPython's `str()` on ints and floats.  Floats are carried as
exact rationals; every IEEE double has a terminating decimal expansion, and on
such rationals CPython's `repr` prints the digits in fixed notation, switching
to scientific notation when the decimal exponent is below -4 or at least 16,
and appending `.0` to integral values. -/

/-- Digit accumulator (most significant first); fuel bounds the digit count. -/
def natDigitsAux : Nat → Nat → List Nat
  | 0, _ => []
  | fuel + 1, n => if n = 0 then [] else natDigitsAux fuel (n / 10) ++ [n % 10]

/-- The base-10 digits of `n`, most significant first (empty for 0). -/
def natDigits (n : Nat) : List Nat := natDigitsAux 64 n

/-- Render a digit list as a string. -/
def digitsToString (ds : List Nat) : String :=
  String.mk (ds.map (fun d => Char.ofNat (48 + d)))

/-- Python `str` on an int. -/
def natStr (n : Nat) : String := if n = 0 then "0" else digitsToString (natDigits n)

/-- Python `str` on an int (signed). -/
def intStr : Int → String
  | .ofNat n => natStr n
  | .negSucc n => "-" ++ natStr (n + 1)

/-- Strip trailing zero digits. -/
def stripZeros (ds : List Nat) : List Nat := (ds.reverse.dropWhile (fun d => d = 0)).reverse

/-- Find the smallest `k` with `q * 10 ^ k` integral, returning `k` and the
integer `q * 10 ^ k` (for positive `q` with terminating decimal expansion). -/
def qDecExpAux : Nat → ℚ → Option (Nat × Nat)
  | 0, _ => none
  | fuel + 1, q =>
      if q.den = 1 then some (0, q.num.toNat)
      else
        match qDecExpAux fuel (q * 10) with
        | some kn => some (kn.1 + 1, kn.2)
        | none => none

/-- CPython `repr` of a positive float with terminating decimal value `q`. -/
def pyFloatReprPos (q : ℚ) : String :=
  match qDecExpAux 64 q with
  | none => "<nonterminating>"
  | some (k, n) =>
    let ds := natDigits n
    let d := ds.length
    let e : Int := (d : Int) - 1 - (k : Int)
    if e < -4 ∨ 16 ≤ e then
      let rest := stripZeros (ds.drop 1)
      let mant :=
        if rest.isEmpty then digitsToString (ds.take 1)
        else digitsToString (ds.take 1) ++ "." ++ digitsToString rest
      let sgn := if e < 0 then "-" else "+"
      let eds := natDigits e.natAbs
      let estr := if eds.length < 2 then "0" ++ digitsToString eds else digitsToString eds
      mant ++ "e" ++ sgn ++ estr
    else if k = 0 then digitsToString ds ++ ".0"
    else if k < d then digitsToString (ds.take (d - k)) ++ "." ++ digitsToString (ds.drop (d - k))
    else "0." ++ digitsToString (List.replicate (k - d) 0) ++ digitsToString ds

/-- CPython `repr`/`str` of a float with exact value `q`. -/
def pyFloatRepr (q : ℚ) : String :=
  if q = 0 then "0.0" else if q < 0 then "-" ++ pyFloatReprPos (-q) else pyFloatReprPos q

/-- The string an f-string interpolation produces for a property value.  The
derived-marker tuples are only ever interpolated on code paths the claims do
not exercise; they render as a tuple-like placeholder. -/
def valStr : Val → String
  | .int n => intStr n
  | .float q => pyFloatRepr q
  | .derived s f => "(" ++ s ++ ", " ++ f ++ ")"

/-! ### Serializer (`differometor_to_finesse`) -/

/-- The errors the serializer can hit: a missing dict key (`KeyError`), the
broken fallback after a missing schema entry (the source prints and then hits
an undefined `property_dict`), and `TypeError` from arithmetic on non-numbers. -/
inductive FinErr where
  | keyError : String → FinErr
  | missingSchema : String → FinErr
  | typeErr : FinErr
deriving DecidableEq, Repr

/-- Modelled from the spec: `differometor.components.DEFAULT_PROPERTIES`, the
external read-only default-property registry (its module is not under `src/`).
Per the spec it is the same per-kind default record the `Setup` schema uses. -/
def DEFAULT_PROPERTIES : String → Option Dict := default_properties

/-- Python subtraction on property values at their exact literal values:
int-int stays int, otherwise float; `none` models `TypeError` on the
derived-marker tuples.  The binary64-rounding reading is `valSubD` below. -/
def valSub : Val → Val → Option Val
  | .int a, .int b => some (.int (a - b))
  | .int a, .float b => some (.float ((a : ℚ) - b))
  | .float a, .int b => some (.float (a - (b : ℚ)))
  | .float a, .float b => some (.float (a - b))
  | _, _ => none

/-- Python multiplication on property values (same typing rules as `valSub`). -/
def valMul : Val → Val → Option Val
  | .int a, .int b => some (.int (a * b))
  | .int a, .float b => some (.float ((a : ℚ) * b))
  | .float a, .int b => some (.float (a * (b : ℚ)))
  | .float a, .float b => some (.float (a * b))
  | _, _ => none

/-- Lines 547-549 (and 552-554) of the serializer: the fold of loss into the
stored reflectivity, `r = reflectivity * (1 - loss)`, `t = 1 - r - loss`,
over exact rationals (the reading the round-trip claim is scoped to); the
binary64 reading is `mirrorRTD` below. -/
def mirrorRT (pd : Dict) : Except FinErr (Val × Val) :=
  match alookup "loss" pd with
  | none => .error (.keyError "loss")
  | some l =>
    match alookup "reflectivity" pd with
    | none => .error (.keyError "reflectivity")
    | some refl =>
      match valSub (.int 1) l with
      | none => .error .typeErr
      | some oneMl =>
        match valMul refl oneMl with
        | none => .error .typeErr
        | some r =>
          match valSub (.int 1) r with
          | none => .error .typeErr
          | some oneMr =>
            match valSub oneMr l with
            | none => .error .typeErr
            | some t => .ok (r, t)

/-- The serializer's `port_translation` table: `none` models a `KeyError`. -/
def port_translation (component port : String) : Option String :=
  match component with
  | "mirror" | "nothing" =>
      (match port with
       | "left" => some "p1" | "right" => some "p2" | _ => none)
  | "laser" | "squeezer" =>
      (match port with
       | "left" => some "p1" | "right" => some "p1" | _ => none)
  | "beamsplitter" | "directional_beamsplitter" =>
      (match port with
       | "left" => some "p1" | "top" => some "p2" | "right" => some "p3" | "bottom" => some "p4"
       | _ => none)
  | _ => none

/-- Whether the `port_translation` table has an entry for the component kind. -/
def portTableHas (component : String) : Bool :=
  component = "mirror" ∨ component = "laser" ∨ component = "squeezer" ∨
    component = "beamsplitter" ∨ component = "directional_beamsplitter" ∨
    component = "nothing"

/-- The serializer's `direction_translation` table. -/
def direction_translation (d : String) : Option String :=
  match d with
  | "in" => some "i"
  | "out" => some "o"
  | _ => none

/-- Look up a property in the merged serializer dict; a `none` dict models the
source's broken missing-schema fallback. -/
def getProp (pd : Option Dict) (component k : String) : Except FinErr Val :=
  match pd with
  | none => .error (.missingSchema component)
  | some d =>
    match alookup k d with
    | some v => .ok v
    | none => .error (.keyError k)

/-- The required `data['target']` read of the free_mass/signal/qnoised
templates (`KeyError` when the optional key was never stored). -/
def getTarget (data : NodeData) : Except FinErr String :=
  match data.target with
  | none => .error (.keyError "target")
  | some t => .ok t

/-- One node statement of `differometor_to_finesse` (lines 533-572).  Kinds
with no template branch (`detector`, `qhd`, `frequency`-unknowns) contribute
the empty string, exactly as the source's if/elif chain does. -/
def nodeStmt (ns : NodeList) (node : String) (data : NodeData) : Except FinErr String :=
  let pd : Option Dict := (DEFAULT_PROPERTIES data.component).map
    (fun d => dictMerge d data.properties)
  match data.component with
  | "frequency" => do
      let f ← getProp pd data.component "frequency"
      pure ("fsig(" ++ valStr f ++ ")\n")
  | "laser" => do
      let p ← getProp pd data.component "power"
      let ph ← getProp pd data.component "phase"
      pure ("l " ++ node ++ " P=" ++ valStr p ++ " phase=" ++ valStr ph ++ "\n")
  | "squeezer" => do
      let db ← getProp pd data.component "db"
      let ang ← getProp pd data.component "angle"
      pure ("sq " ++ node ++ " db=" ++ valStr db ++ " angle=" ++ valStr ang ++ "\n")
  | "mirror" => do
      let l ← getProp pd data.component "loss"
      let refl ← getProp pd data.component "reflectivity"
      let rt ← mirrorRT [("loss", l), ("reflectivity", refl)]
      let tu ← getProp pd data.component "tuning"
      pure ("m " ++ node ++ " R=" ++ valStr rt.1 ++ " T=" ++ valStr rt.2 ++
        " L=" ++ valStr l ++ " phi=" ++ valStr tu ++ "\n")
  | "beamsplitter" => do
      let l ← getProp pd data.component "loss"
      let refl ← getProp pd data.component "reflectivity"
      let rt ← mirrorRT [("loss", l), ("reflectivity", refl)]
      let tu ← getProp pd data.component "tuning"
      let al ← getProp pd data.component "alpha"
      pure ("bs " ++ node ++ " R=" ++ valStr rt.1 ++ " T=" ++ valStr rt.2 ++
        " L=" ++ valStr l ++ " phi=" ++ valStr tu ++ " alpha=" ++ valStr al ++ "\n")
  | "free_mass" => do
      let tgt ← getTarget data
      let m ← getProp pd data.component "mass"
      pure ("free_mass " ++ node ++ " " ++ tgt ++ ".mech mass=" ++ valStr m ++ "\n")
  | "signal" =>
      if data.target_property = some "frequency" then do
        let tgt ← getTarget data
        let a ← getProp pd data.component "amplitude"
        let ph ← getProp pd data.component "phase"
        pure ("sgen " ++ node ++ " " ++ tgt ++ ".frq.i amplitude=" ++ valStr a ++
          " phase=" ++ valStr ph ++ "\n")
      else if data.target_property = some "amplitude" then do
        let tgt ← getTarget data
        let ph ← getProp pd data.component "phase"
        pure ("sgen " ++ node ++ " " ++ tgt ++ ".amp.i amplitude=sqrt(" ++ tgt ++
          ".P) phase=" ++ valStr ph ++ "\n")
      else do
        let tgt ← getTarget data
        let a ← getProp pd data.component "amplitude"
        let ph ← getProp pd data.component "phase"
        pure ("sgen " ++ node ++ " " ++ tgt ++ ".h amplitude=" ++ valStr a ++
          " phase=" ++ valStr ph ++ "\n")
  | "qnoised" => do
      let tgt ← getTarget data
      match alookup tgt ns with
      | none => .error (.keyError tgt)
      | some tnd =>
        if ¬ portTableHas tnd.component then .error (.keyError tnd.component)
        else
          match data.port with
          | none => .error (.keyError "port")
          | some p =>
            match port_translation tnd.component p with
            | none => .error (.keyError p)
            | some pc =>
              match data.direction with
              | none => .error (.keyError "direction")
              | some dir =>
                match direction_translation dir with
                | none => .error (.keyError dir)
                | some dc =>
                    pure ("qnoised " ++ node ++ " " ++ tgt ++ "." ++ pc ++ "." ++ dc ++ "\n")
  | "directional_beamsplitter" => pure ("dbs " ++ node ++ "\n")
  | "nothing" => pure ("nothing " ++ node ++ "\n")
  | _ => pure ""

/-- One edge statement of `differometor_to_finesse` (lines 575-581). -/
def edgeStmt (ns : NodeList) (source target : String) (data : EdgeData) :
    Except FinErr String :=
  let pd := dictMerge ((DEFAULT_PROPERTIES "space").getD []) data.properties
  match alookup source ns with
  | none => .error (.keyError source)
  | some snd =>
    if ¬ portTableHas snd.component then .error (.keyError snd.component)
    else
      match port_translation snd.component data.source_port with
      | none => .error (.keyError data.source_port)
      | some sp =>
        match alookup target ns with
        | none => .error (.keyError target)
        | some tnd =>
          if ¬ portTableHas tnd.component then .error (.keyError tnd.component)
          else
            match port_translation tnd.component data.target_port with
            | none => .error (.keyError data.target_port)
            | some tp =>
              match alookup "length" pd, alookup "refractive_index" pd with
              | some len, some nr =>
                  .ok ("s " ++ source ++ "_" ++ target ++ " " ++ source ++ "." ++ sp ++ " " ++
                    target ++ "." ++ tp ++ " L=" ++ valStr len ++ " nr=" ++ valStr nr ++ "\n")
              | _, _ => .error (.keyError "length")

/-- Concatenate node statements in insertion order, aborting at the first error. -/
def finesseNodes (ns : NodeList) : NodeList → Except FinErr String
  | [] => .ok ""
  | (n, d) :: rest =>
    match nodeStmt ns n d with
    | .error e => .error e
    | .ok s =>
      match finesseNodes ns rest with
      | .error e => .error e
      | .ok srest => .ok (s ++ srest)

/-- Concatenate edge statements in insertion order, aborting at the first error. -/
def finesseEdges (ns : NodeList) : EdgeList → Except FinErr String
  | [] => .ok ""
  | ((s, t), d) :: rest =>
    match edgeStmt ns s t d with
    | .error e => .error e
    | .ok stmt =>
      match finesseEdges ns rest with
      | .error e => .error e
      | .ok srest => .ok (stmt ++ srest)

/-- `differometor_to_finesse`: node statements in insertion order, a blank
line, then edge statements in insertion order. -/
def differometor_to_finesse (S : Setup) : Except FinErr String :=
  match finesseNodes S.nodes S.nodes with
  | .error e => .error e
  | .ok a =>
    match finesseEdges S.nodes S.edges with
    | .error e => .error e
    | .ok b => .ok (a ++ "\n" ++ b)

/-! ### IEEE binary64 floats

CPython floats are IEEE binary64 values and every arithmetic operation rounds
its exact result to the nearest representable double (ties to even).  The model
carries a float as the exact rational value of the decimal literal it was
stored from; `fl` maps such a value to the rational value of its binary64
representation, and the `d`-prefixed operations round after every step, as the
hardware does.  Magnitudes beyond the largest finite double (which never arise
in the serialized setups) are not modelled. -/

/-- Floor base-2 logarithm of a natural number (fuel-bounded). -/
def natLog2Aux : Nat → Nat → Nat
  | 0, _ => 0
  | fuel + 1, n => if 2 ≤ n then natLog2Aux fuel (n / 2) + 1 else 0

/-- Floor base-2 logarithm of a natural number. -/
def natLog2 (n : Nat) : Nat := natLog2Aux 1200 n

/-- Whether `2 ^ e ≤ q` (for positive `q`), by cross-multiplication. -/
def qLeP2 (e : Int) (q : ℚ) : Bool :=
  if 0 ≤ e then (q.den : Int) * 2 ^ e.toNat ≤ q.num
  else (q.den : Int) ≤ q.num * 2 ^ (-e).toNat

/-- Greatest `e` with `2 ^ e ≤ q`, for positive `q`. -/
def floorLog2Q (q : ℚ) : Int :=
  let e0 : Int := (natLog2 q.num.natAbs : Int) - (natLog2 q.den : Int)
  if qLeP2 (e0 + 1) q then e0 + 1 else if qLeP2 e0 q then e0 else e0 - 1

/-- Round the fraction `N / D` (with `D > 0`) to the nearest integer, ties to
even. -/
def rne (N D : Int) : Int :=
  let q := N.ediv D
  let r := N.emod D
  if 2 * r < D then q else if D < 2 * r then q + 1 else if q % 2 = 0 then q else q + 1

/-- Round a positive rational to the nearest binary64 value (normal or
subnormal): scale into the mantissa range `[2^52, 2^53)` — or onto the fixed
subnormal grid `2^-1074` — and round to nearest, ties to even. -/
def flPos (q : ℚ) : ℚ :=
  let e : Int := max (floorLog2Q q - 52) (-1074)
  if 0 ≤ e then ((rne q.num ((q.den : Int) * 2 ^ e.toNat) * 2 ^ e.toNat : Int) : ℚ)
  else mkRat (rne (q.num * 2 ^ (-e).toNat) (q.den : Int)) (2 ^ (-e).toNat)

/-- Round a rational to the nearest binary64 value. -/
def fl (q : ℚ) : ℚ := if q.num = 0 then 0 else if q.num < 0 then -flPos (-q) else flPos q

/-- IEEE double subtraction: subtract exactly, then round. -/
def dsub (a b : ℚ) : ℚ := fl (a - b)

/-- IEEE double multiplication: multiply exactly, then round. -/
def dmul (a b : ℚ) : ℚ := fl (a * b)
/-- Floor base-10 logarithm of a natural number (fuel-bounded). -/
def natLog10Aux : Nat → Nat → Nat
  | 0, _ => 0
  | fuel + 1, n => if 10 ≤ n then natLog10Aux fuel (n / 10) + 1 else 0

/-- Floor base-10 logarithm of a natural number. -/
def natLog10 (n : Nat) : Nat := natLog10Aux 400 n

/-- Whether `10 ^ e ≤ q` (for positive `q`), by cross-multiplication. -/
def qLeP10 (e : Int) (q : ℚ) : Bool :=
  if 0 ≤ e then (q.den : Int) * 10 ^ e.toNat ≤ q.num
  else (q.den : Int) ≤ q.num * 10 ^ (-e).toNat

/-- Greatest `e` with `10 ^ e ≤ q`, for positive `q`. -/
def floorLog10Q (q : ℚ) : Int :=
  let e0 : Int := (natLog10 q.num.natAbs : Int) - (natLog10 q.den : Int)
  if qLeP10 (e0 + 1) q then e0 + 1 else if qLeP10 e0 q then e0 else e0 - 1

/-- `10 ^ k` as a rational, for `k : ℤ`. -/
def pow10Q (k : Int) : ℚ :=
  if 0 ≤ k then ((10 ^ k.toNat : Nat) : ℚ) else mkRat 1 (10 ^ (-k).toNat)

/-- Round positive `x` to `n` significant decimal digits: the pair `(D, k)`
with value `D * 10 ^ k`, `D` the nearest `n`-digit integer (ties to even). -/
def roundSigD (x : ℚ) (n : Nat) : Int × Int :=
  let k : Int := floorLog10Q x - (n : Int) + 1
  if 0 ≤ k then (rne x.num ((x.den : Int) * 10 ^ k.toNat), k)
  else (rne (x.num * 10 ^ (-k).toNat) (x.den : Int), k)

/-- Strip trailing decimal zeros from `(D, k)`, moving them into the exponent. -/
def stripTensAux : Nat → Int × Int → Int × Int
  | 0, p => p
  | fuel + 1, (D, k) => if D % 10 = 0 ∧ D ≠ 0 then stripTensAux fuel (D / 10, k + 1) else (D, k)

/-- Equality test on rationals via their normalized fields (a cheap `Bool`
used instead of `Decidable` instances in the evaluation loop below). -/
def beqQ (a b : ℚ) : Bool := a.num == b.num && a.den == b.den

/-- CPython's `repr` digits for a positive double `x`: the shortest significant
-digit count whose nearest decimal rounds back to `x` (17 digits always do). -/
def shortestAux (x : ℚ) : Nat → Nat → Int × Int
  | _, 0 => stripTensAux 40 (roundSigD x 17)
  | n, fuel + 1 =>
      let Dk := roundSigD x n
      if beqQ (fl ((Dk.1 : ℚ) * pow10Q Dk.2)) x then stripTensAux 40 Dk
      else shortestAux x (n + 1) fuel

/-- The shortest round-tripping decimal `(digits, exponent)` of a positive
double. -/
def shortestDigits (x : ℚ) : Int × Int := shortestAux x 1 17

/-- CPython `repr` of a positive double: shortest round-trip digits, fixed
notation for decimal exponents in `[-4, 16)`, scientific otherwise. -/
def pyReprPosD (x : ℚ) : String :=
  let Dk := shortestDigits x
  let ds := natDigits Dk.1.natAbs
  let nn : Int := (ds.length : Int)
  let dexp : Int := Dk.2 + nn - 1
  if dexp < -4 ∨ 16 ≤ dexp then
    let rest := ds.drop 1
    let mant :=
      if rest.isEmpty then digitsToString (ds.take 1)
      else digitsToString (ds.take 1) ++ "." ++ digitsToString rest
    let sgn := if dexp < 0 then "-" else "+"
    let eds := natDigits dexp.natAbs
    let estr := if eds.length < 2 then "0" ++ digitsToString eds else digitsToString eds
    mant ++ "e" ++ sgn ++ estr
  else if 0 ≤ Dk.2 then
    digitsToString ds ++ digitsToString (List.replicate Dk.2.toNat 0) ++ ".0"
  else
    if 0 < nn + Dk.2 then
      digitsToString (ds.take (nn + Dk.2).toNat) ++ "." ++
        digitsToString (ds.drop (nn + Dk.2).toNat)
    else "0." ++ digitsToString (List.replicate (-(nn + Dk.2)).toNat 0) ++ digitsToString ds

/-- CPython `repr`/`str` of a double with value `x`. -/
def pyReprD (x : ℚ) : String :=
  if x.num = 0 then "0.0" else if x.num < 0 then "-" ++ pyReprPosD (-x) else pyReprPosD x
/-- `valStr` under IEEE semantics: a stored float denotes its binary64 value. -/
def valStrD : Val → String
  | .int n => intStr n
  | .float q => pyReprD (fl q)
  | .derived s f => "(" ++ s ++ ", " ++ f ++ ")"

/-- `valSub` under IEEE semantics: each float operand denotes its binary64
value and the result is rounded, as CPython's double subtraction does. -/
def valSubD : Val → Val → Option Val
  | .int a, .int b => some (.int (a - b))
  | .int a, .float b => some (.float (dsub (a : ℚ) (fl b)))
  | .float a, .int b => some (.float (dsub (fl a) (b : ℚ)))
  | .float a, .float b => some (.float (dsub (fl a) (fl b)))
  | _, _ => none

/-- `valMul` under IEEE semantics. -/
def valMulD : Val → Val → Option Val
  | .int a, .int b => some (.int (a * b))
  | .int a, .float b => some (.float (dmul (a : ℚ) (fl b)))
  | .float a, .int b => some (.float (dmul (fl a) (b : ℚ)))
  | .float a, .float b => some (.float (dmul (fl a) (fl b)))
  | _, _ => none

/-- The serializer's loss fold (lines 547-549 / 552-554) under IEEE
semantics: `r = reflectivity * (1 - loss)`, `t = 1 - r - loss`, every
operation rounded to binary64. -/
def mirrorRTD (pd : Dict) : Except FinErr (Val × Val) :=
  match alookup "loss" pd with
  | none => .error (.keyError "loss")
  | some l =>
    match alookup "reflectivity" pd with
    | none => .error (.keyError "reflectivity")
    | some refl =>
      match valSubD (.int 1) l with
      | none => .error .typeErr
      | some oneMl =>
        match valMulD refl oneMl with
        | none => .error .typeErr
        | some r =>
          match valSubD (.int 1) r with
          | none => .error .typeErr
          | some oneMr =>
            match valSubD oneMr l with
            | none => .error .typeErr
            | some t => .ok (r, t)

/-- `nodeStmt` under IEEE semantics (same template branches, binary64
arithmetic and printing). -/
def nodeStmtD (ns : NodeList) (node : String) (data : NodeData) : Except FinErr String :=
  let pd : Option Dict := (DEFAULT_PROPERTIES data.component).map
    (fun d => dictMerge d data.properties)
  match data.component with
  | "frequency" => do
      let f ← getProp pd data.component "frequency"
      pure ("fsig(" ++ valStrD f ++ ")\n")
  | "laser" => do
      let p ← getProp pd data.component "power"
      let ph ← getProp pd data.component "phase"
      pure ("l " ++ node ++ " P=" ++ valStrD p ++ " phase=" ++ valStrD ph ++ "\n")
  | "squeezer" => do
      let db ← getProp pd data.component "db"
      let ang ← getProp pd data.component "angle"
      pure ("sq " ++ node ++ " db=" ++ valStrD db ++ " angle=" ++ valStrD ang ++ "\n")
  | "mirror" => do
      let l ← getProp pd data.component "loss"
      let refl ← getProp pd data.component "reflectivity"
      let rt ← mirrorRTD [("loss", l), ("reflectivity", refl)]
      let tu ← getProp pd data.component "tuning"
      pure ("m " ++ node ++ " R=" ++ valStrD rt.1 ++ " T=" ++ valStrD rt.2 ++
        " L=" ++ valStrD l ++ " phi=" ++ valStrD tu ++ "\n")
  | "beamsplitter" => do
      let l ← getProp pd data.component "loss"
      let refl ← getProp pd data.component "reflectivity"
      let rt ← mirrorRTD [("loss", l), ("reflectivity", refl)]
      let tu ← getProp pd data.component "tuning"
      let al ← getProp pd data.component "alpha"
      pure ("bs " ++ node ++ " R=" ++ valStrD rt.1 ++ " T=" ++ valStrD rt.2 ++
        " L=" ++ valStrD l ++ " phi=" ++ valStrD tu ++ " alpha=" ++ valStrD al ++ "\n")
  | "free_mass" => do
      let tgt ← getTarget data
      let m ← getProp pd data.component "mass"
      pure ("free_mass " ++ node ++ " " ++ tgt ++ ".mech mass=" ++ valStrD m ++ "\n")
  | "signal" =>
      if data.target_property = some "frequency" then do
        let tgt ← getTarget data
        let a ← getProp pd data.component "amplitude"
        let ph ← getProp pd data.component "phase"
        pure ("sgen " ++ node ++ " " ++ tgt ++ ".frq.i amplitude=" ++ valStrD a ++
          " phase=" ++ valStrD ph ++ "\n")
      else if data.target_property = some "amplitude" then do
        let tgt ← getTarget data
        let ph ← getProp pd data.component "phase"
        pure ("sgen " ++ node ++ " " ++ tgt ++ ".amp.i amplitude=sqrt(" ++ tgt ++
          ".P) phase=" ++ valStrD ph ++ "\n")
      else do
        let tgt ← getTarget data
        let a ← getProp pd data.component "amplitude"
        let ph ← getProp pd data.component "phase"
        pure ("sgen " ++ node ++ " " ++ tgt ++ ".h amplitude=" ++ valStrD a ++
          " phase=" ++ valStrD ph ++ "\n")
  | "qnoised" => do
      let tgt ← getTarget data
      match alookup tgt ns with
      | none => .error (.keyError tgt)
      | some tnd =>
        if ¬ portTableHas tnd.component then .error (.keyError tnd.component)
        else
          match data.port with
          | none => .error (.keyError "port")
          | some p =>
            match port_translation tnd.component p with
            | none => .error (.keyError p)
            | some pc =>
              match data.direction with
              | none => .error (.keyError "direction")
              | some dir =>
                match direction_translation dir with
                | none => .error (.keyError dir)
                | some dc =>
                    pure ("qnoised " ++ node ++ " " ++ tgt ++ "." ++ pc ++ "." ++ dc ++ "\n")
  | "directional_beamsplitter" => pure ("dbs " ++ node ++ "\n")
  | "nothing" => pure ("nothing " ++ node ++ "\n")
  | _ => pure ""

/-- `edgeStmt` under IEEE semantics. -/
def edgeStmtD (ns : NodeList) (source target : String) (data : EdgeData) :
    Except FinErr String :=
  let pd := dictMerge ((DEFAULT_PROPERTIES "space").getD []) data.properties
  match alookup source ns with
  | none => .error (.keyError source)
  | some snd =>
    if ¬ portTableHas snd.component then .error (.keyError snd.component)
    else
      match port_translation snd.component data.source_port with
      | none => .error (.keyError data.source_port)
      | some sp =>
        match alookup target ns with
        | none => .error (.keyError target)
        | some tnd =>
          if ¬ portTableHas tnd.component then .error (.keyError tnd.component)
          else
            match port_translation tnd.component data.target_port with
            | none => .error (.keyError data.target_port)
            | some tp =>
              match alookup "length" pd, alookup "refractive_index" pd with
              | some len, some nr =>
                  .ok ("s " ++ source ++ "_" ++ target ++ " " ++ source ++ "." ++ sp ++ " " ++
                    target ++ "." ++ tp ++ " L=" ++ valStrD len ++ " nr=" ++ valStrD nr ++ "\n")
              | _, _ => .error (.keyError "length")

/-- Node statements in insertion order under IEEE semantics. -/
def finesseNodesD (ns : NodeList) : NodeList → Except FinErr String
  | [] => .ok ""
  | (n, d) :: rest =>
    match nodeStmtD ns n d with
    | .error e => .error e
    | .ok s =>
      match finesseNodesD ns rest with
      | .error e => .error e
      | .ok srest => .ok (s ++ srest)

/-- Edge statements in insertion order under IEEE semantics. -/
def finesseEdgesD (ns : NodeList) : EdgeList → Except FinErr String
  | [] => .ok ""
  | ((s, t), d) :: rest =>
    match edgeStmtD ns s t d with
    | .error e => .error e
    | .ok stmt =>
      match finesseEdgesD ns rest with
      | .error e => .error e
      | .ok srest => .ok (stmt ++ srest)

/-- `differometor_to_finesse` with its floats given CPython's IEEE binary64
semantics: node statements in insertion order, a blank line, then edge
statements in insertion order. -/
def differometor_to_finesse_f64 (S : Setup) : Except FinErr String :=
  match finesseNodesD S.nodes S.nodes with
  | .error e => .error e
  | .ok a =>
    match finesseEdgesD S.nodes S.edges with
    | .error e => .error e
    | .ok b => .ok (a ++ "\n" ++ b)

/-! ### Constraint grouper (`constrain_inter_grid_cell_spaces`) -/

/-- An output element of the grouper: a plain `(entity, property)` pair, or a
list of pairs tied to one shared degree of freedom (line 487 of the source
unwraps one-element groups back into plain pairs). -/
inductive Grouped where
  | single : (String × String) → Grouped
  | group : List (String × String) → Grouped
deriving DecidableEq, Repr

/-- Python `defaultdict(list)` append `d[k].append(b)`: first touch of a key
inserts it at the end, later touches extend its list in place. -/
def assocAppend {α : Type} {β : Type} [DecidableEq α] (l : List (α × List β)) (k : α) (b : β) :
    List (α × List β) :=
  if (alookup k l).isSome then l.map (fun p => if p.1 = k then (p.1, p.2 ++ [b]) else p)
  else l ++ [(k, [b])]

/-- Python negative string index `s[-i]` (`none` models `IndexError`). -/
def pyNegIndex (s : String) (i : Nat) : Option Char := s.data.reverse.get? (i - 1)

/-- The loop body of `constrain_inter_grid_cell_spaces` (lines 471-482):
threads the pass-through list and the two coordinate-keyed `defaultdict`s
(horizontal `mr…_ml…` spaces keyed by `split('_')[0][-1]`, vertical
`mt…_mb…` spaces keyed by `split('_')[0][-2]`); an out-of-range index is the
`IndexError` Python would raise. -/
def constrainLoop : List (String × String) → List (String × String) →
    List (Char × List (String × String)) → List (Char × List (String × String)) →
    Except Unit (List (String × String) × List (Char × List (String × String)) ×
      List (Char × List (String × String)))
  | [], cs, h, v => .ok (cs, h, v)
  | (name, prop) :: rest, cs, h, v =>
    if prop = "length" then
      if strContains name "center" ∨ strContains name "boundary" then
        constrainLoop rest cs h v
      else if strContains name "mr" ∧ strContains name "_ml" then
        match pyNegIndex ((splitU name).headD "") 1 with
        | some c => constrainLoop rest cs (assocAppend h c (name, prop)) v
        | none => .error ()
      else if strContains name "mt" ∧ strContains name "_mb" then
        match pyNegIndex ((splitU name).headD "") 2 with
        | some c => constrainLoop rest cs h (assocAppend v c (name, prop))
        | none => .error ()
      else constrainLoop rest (cs ++ [(name, prop)]) h v
    else constrainLoop rest (cs ++ [(name, prop)]) h v

/-- Lines 483-487: append the grouped lists after the singletons (horizontal
dict first, then vertical, each in insertion order), drop empty entries, and
unwrap one-element groups into plain pairs. -/
def constrainFinish (cs : List (String × String))
    (h v : List (Char × List (String × String))) : List Grouped :=
  ((cs.map (fun p => [p]) ++ h.map Prod.snd ++ v.map Prod.snd).filter
    (fun g => ¬ g.isEmpty)).map
    (fun g => if g.length = 1 then Grouped.single (g.headD ("", "")) else Grouped.group g)

/-- `constrain_inter_grid_cell_spaces`: filter the parameter list to the
optimized properties, then regroup inter-cell `length` parameters. -/
def constrain_inter_grid_cell_spaces (pairs : List (String × String))
    (optimized : List String) : Except Unit (List Grouped) :=
  let filtered := pairs.filter (fun p => optimized.contains p.2)
  match constrainLoop filtered [] [] [] with
  | .error e => .error e
  | .ok (cs, h, v) => .ok (constrainFinish cs h v)

/-! ### Claim-support definitions -/

/-- The property dict of the node stored under `n` (empty if absent). -/
def nodeProps (S : Setup) (n : String) : Dict :=
  ((alookup n S.nodes).map NodeData.properties).getD []

/-- The errors raised by the validation pre-pass of `add` (lines 85-105),
i.e. before any state is committed; the reference/enum errors of lines
114-159 are raised only after the node record and parameters are stored. -/
def validationError : SetupError → Bool
  | .naming _ => true
  | .conflict => true
  | .unknownComponent _ => true
  | .schemaMismatch _ => true
  | .zeroDivision => true
  | .typeError => true
  | _ => false

/-- Spec-side prediction of the parameter entries one construction call
appends: for `add`, unless the kind is signal/frequency, when optimizable,
one `(name, property)` pair per property of the kind's schema record in
schema order; for `space`, when optimizable, one `("source_target",
property)` pair per space schema property. -/
def specCallParams : Call → List (String × String)
  | .addC c n opt _ _ _ _ _ _ _ =>
      if ¬ c = "signal" ∧ ¬ c = "frequency" ∧ opt then
        ((default_properties c).getD []).map (fun p => (n, p.1))
      else []
  | .spaceC s t opt _ _ _ =>
      if opt then
        ((default_properties "space").getD []).map (fun p => (s ++ "_" ++ t, p.1))
      else []

/-- Flatten a grouper output element back to its parameter pairs. -/
def Grouped.flat : Grouped → List (String × String)
  | .single p => [p]
  | .group g => g

/-- The grouper drops these: `length` parameters of intra-cell or boundary
spaces (entity name containing `center` or `boundary`). -/
def droppedPair (p : String × String) : Bool :=
  decide (p.2 = "length") && (strContains p.1 "center" || strContains p.1 "boundary")

/-- A kept `length` parameter matching the horizontal inter-cell pattern. -/
def hPat (p : String × String) : Bool :=
  decide (p.2 = "length") && !(strContains p.1 "center" || strContains p.1 "boundary") &&
    (strContains p.1 "mr" && strContains p.1 "_ml")

/-- A kept `length` parameter matching the vertical inter-cell pattern
(checked only when the horizontal pattern does not match). -/
def vPat (p : String × String) : Bool :=
  decide (p.2 = "length") && !(strContains p.1 "center" || strContains p.1 "boundary") &&
    !(strContains p.1 "mr" && strContains p.1 "_ml") &&
    (strContains p.1 "mt" && strContains p.1 "_mb")

/-- A parameter that passes through the grouper as a singleton. -/
def passPair (p : String × String) : Bool := !droppedPair p && !hPat p && !vPat p

/-- The grouping coordinate of a horizontal match: last char of the source segment. -/
def hKey (p : String × String) : Option Char := pyNegIndex ((splitU p.1).headD "") 1

/-- The grouping coordinate of a vertical match: second-to-last char of the source segment. -/
def vKey (p : String × String) : Option Char := pyNegIndex ((splitU p.1).headD "") 2

/-- The toy two-node, one-space scenario of the spec's end-to-end property:
`laser l0`, `mirror m1`, `space l0 m1`, defaults only. -/
def toyCalls : List Call :=
  [ .addC "laser" "l0" true none none none none none none [],
    .addC "mirror" "m1" true none none none none none none [],
    .spaceC "l0" "m1" true "right" "left" [] ]

/-! ### Association-list lemmas -/

theorem alookup_mapUpd {α β : Type} [DecidableEq α] (l : List (α × β)) (k k' : α) (f : β → β) :
    alookup k' (l.map (fun p => if p.1 = k then (p.1, f p.2) else p)) =
      if k' = k then (alookup k l).map f else alookup k' l := by
  induction l with
  | nil => by_cases hk : k' = k <;> simp [alookup, hk]
  | cons p rest ih =>
      by_cases h1 : p.1 = k
      · by_cases h2 : k' = k
        · have hpk' : p.1 = k' := by rw [h1, h2]
          simp [alookup, h1, h2, hpk']
        · have hpk' : ¬ p.1 = k' := by
            rw [h1]; intro hh; exact h2 hh.symm
          have h2' : ¬ k = k' := fun hh => h2 hh.symm
          simp [alookup, h1, h2, h2', hpk', ih]
      · by_cases h2 : p.1 = k'
        · have hk : ¬ k' = k := by
            intro hh; rw [hh] at h2; exact h1 h2
          simp [alookup, h1, h2, hk]
        · by_cases hk : k' = k
          · subst hk
            simp only [List.map_cons]
            simp [alookup, h1, h2]
            simpa using ih
          · simp [alookup, h1, h2, hk, ih]

theorem alookup_append {α β : Type} [DecidableEq α] (l1 l2 : List (α × β)) (k : α) :
    alookup k (l1 ++ l2) =
      (match alookup k l1 with | some v => some v | none => alookup k l2) := by
  induction l1 with
  | nil => simp [alookup]
  | cons p rest ih =>
      by_cases hp : p.1 = k <;> simp [alookup, hp, ih]

theorem alookup_assocSet {α β : Type} [DecidableEq α] (l : List (α × β)) (k k' : α) (v : β) :
    alookup k' (assocSet l k v) = if k' = k then some v else alookup k' l := by
  unfold assocSet
  split
  · rename_i hsome
    have := alookup_mapUpd l k k' (fun _ => v)
    simp only at this
    rw [this]
    by_cases hk : k' = k
    · obtain ⟨w, hw⟩ := Option.isSome_iff_exists.mp hsome
      simp [hk, hw]
    · simp [hk]
  · rename_i hnone
    rw [alookup_append]
    have hn : alookup k l = none := by
      cases h : alookup k l with
      | none => rfl
      | some w => rw [h] at hnone; simp at hnone
    by_cases hk : k' = k
    · rw [hk, hn]
      simp [alookup]
    · cases h : alookup k' l with
      | none =>
          have : ¬ k = k' := fun hh => hk hh.symm
          simp [alookup, this, hk]
      | some w => simp [hk]

theorem keys_assocSet {α β : Type} [DecidableEq α] (l : List (α × β)) (k : α) (v : β) :
    (assocSet l k v).map Prod.fst =
      if (alookup k l).isSome then l.map Prod.fst else l.map Prod.fst ++ [k] := by
  unfold assocSet
  by_cases h : (alookup k l).isSome
  · rw [if_pos h, if_pos h, List.map_map]
    congr 1
    funext p
    by_cases hp : p.1 = k <;> simp [hp]
  · rw [if_neg h, if_neg h]
    simp

theorem alookup_assocModify {α β : Type} [DecidableEq α] (l : List (α × β)) (k k' : α)
    (f : β → β) :
    alookup k' (assocModify l k f) = if k' = k then (alookup k l).map f else alookup k' l :=
  alookup_mapUpd l k k' f

theorem keys_assocModify {α β : Type} [DecidableEq α] (l : List (α × β)) (k : α) (f : β → β) :
    (assocModify l k f).map Prod.fst = l.map Prod.fst := by
  unfold assocModify
  rw [List.map_map]
  congr 1
  funext p
  by_cases hp : p.1 = k <;> simp [hp]

theorem alookup_eq_none {α β : Type} [DecidableEq α] (l : List (α × β)) (k : α) :
    alookup k l = none ↔ k ∉ l.map Prod.fst := by
  induction l with
  | nil => simp [alookup]
  | cons p rest ih =>
      by_cases hp : p.1 = k
      · simp [alookup, hp]
      · simp only [alookup, hp, if_false, List.map_cons, List.mem_cons, ih]
        constructor
        · intro h hh
          rcases hh with hh | hh
          · exact hp hh.symm
          · exact h hh
        · intro h
          exact fun hh => h (Or.inr hh)

theorem alookup_mem {α β : Type} [DecidableEq α] {l : List (α × β)} {k : α} {v : β}
    (h : alookup k l = some v) : (k, v) ∈ l := by
  induction l with
  | nil => simp [alookup] at h
  | cons p rest ih =>
      simp only [alookup] at h
      split at h
      · rename_i hp
        have h2 := Option.some.inj h
        rw [← hp, ← h2]
        simp
      · exact List.mem_cons_of_mem _ (ih h)

theorem alookup_mergeBase (d u : Dict) (k : String) :
    alookup k (d.map (fun p => match alookup p.1 u with | some v => (p.1, v) | none => p)) =
      (alookup k d).map (fun w => (alookup k u).getD w) := by
  induction d with
  | nil => simp [alookup]
  | cons p rest ih =>
      by_cases hp : p.1 = k
      · cases hu : alookup k u with
        | some v => simp [alookup, hp, hu]
        | none => simp [alookup, hp, hu]
      · cases hu : alookup p.1 u with
        | some v => simp [alookup, hu, hp, ih]
        | none => simp [alookup, hu, hp, ih]

theorem alookup_filter_of_none (d u : Dict) (k : String) (hd : alookup k d = none) :
    alookup k (u.filter (fun p => (alookup p.1 d).isNone)) = alookup k u := by
  induction u with
  | nil => simp
  | cons p rest ih =>
      by_cases hp : p.1 = k
      · simp [List.filter_cons, hp, hd, alookup]
      · by_cases hkeep : (alookup p.1 d).isNone = true <;>
          simp [List.filter_cons, hkeep, alookup, hp, ih]

theorem alookup_dictMerge (d u : Dict) (k : String) :
    alookup k (dictMerge d u) =
      (match alookup k d with
       | some w => some ((alookup k u).getD w)
       | none => alookup k u) := by
  unfold dictMerge
  rw [alookup_append, alookup_mergeBase]
  cases hd : alookup k d with
  | some w => simp
  | none => simp [alookup_filter_of_none d u k hd]

theorem dictMerge_nil (base : Dict) : dictMerge base [] = base := by
  unfold dictMerge
  simp [alookup]

theorem dictMerge_keys_of_length (d u : Dict)
    (h : (dictMerge d u).length = d.length) :
    (dictMerge d u).map Prod.fst = d.map Prod.fst := by
  unfold dictMerge at h ⊢
  have hlen : (u.filter (fun p => (alookup p.1 d).isNone)).length = 0 := by
    simp only [List.length_append, List.length_map] at h
    omega
  have hnil : u.filter (fun p => (alookup p.1 d).isNone) = [] :=
    List.length_eq_zero.mp hlen
  rw [hnil]
  simp only [List.append_nil, List.map_map]
  congr 1
  funext p
  cases hu : alookup p.1 u with
  | some v => simp [hu]
  | none => simp [hu]

theorem dictMerge_length_of_sub (d u : Dict)
    (h : ∀ p ∈ u, (alookup p.1 d).isSome) :
    (dictMerge d u).length = d.length := by
  unfold dictMerge
  have hnil : u.filter (fun p => (alookup p.1 d).isNone) = [] := by
    apply List.filter_eq_nil_iff.mpr
    intro p hp
    have := h p hp
    cases hx : alookup p.1 d with
    | none => rw [hx] at this; simp at this
    | some w => simp [hx]
  rw [hnil]
  simp

/-! ### Construction-engine lemmas -/

/-! ### Construction-engine lemmas -/

theorem applyTarget_keys (ns : NodeList) (es : EdgeList) (name : String) (t : Option String) :
    ((applyTarget ns es name t).1).map Prod.fst = ns.map Prod.fst := by
  cases t with
  | none => rfl
  | some s =>
      simp only [applyTarget]
      repeat' split
      all_goals simp [keys_assocModify]

theorem applyPort_keys (ns : NodeList) (name : String) (p : Option String) :
    ((applyPort ns name p).1).map Prod.fst = ns.map Prod.fst := by
  cases p with
  | none => rfl
  | some s =>
      simp only [applyPort]
      repeat' split
      all_goals simp [keys_assocModify]

theorem applyDirection_keys (ns : NodeList) (name : String) (d : Option String) :
    ((applyDirection ns name d).1).map Prod.fst = ns.map Prod.fst := by
  cases d with
  | none => rfl
  | some s =>
      simp only [applyDirection]
      repeat' split
      all_goals simp [keys_assocModify]

theorem applyAuxiliary_keys (ns : NodeList) (name : String) (b : Option Bool) :
    ((applyAuxiliary ns name b).1).map Prod.fst = ns.map Prod.fst := by
  cases b with
  | none => rfl
  | some s => simp [applyAuxiliary, keys_assocModify]

theorem applyDetector1_keys (ns : NodeList) (name : String) (d : Option String) :
    ((applyDetector1 ns name d).1).map Prod.fst = ns.map Prod.fst := by
  cases d with
  | none => rfl
  | some s =>
      simp only [applyDetector1]
      repeat' split
      all_goals simp [keys_assocModify]

theorem applyDetector2_keys (ns : NodeList) (name : String) (d : Option String) :
    ((applyDetector2 ns name d).1).map Prod.fst = ns.map Prod.fst := by
  cases d with
  | none => rfl
  | some s =>
      simp only [applyDetector2]
      repeat' split
      all_goals simp [keys_assocModify]

theorem applyTarget_err (ns : NodeList) (es : EdgeList) (name : String) (t : Option String)
    (e : SetupError) (h : (applyTarget ns es name t).2 = some e) : validationError e = false := by
  cases t with
  | none => simp [applyTarget] at h
  | some s =>
      simp only [applyTarget] at h
      repeat' split at h
      all_goals simp_all [validationError]
      all_goals rw [← h]
      all_goals rfl

theorem applyPort_err (ns : NodeList) (name : String) (p : Option String)
    (e : SetupError) (h : (applyPort ns name p).2 = some e) : validationError e = false := by
  cases p with
  | none => simp [applyPort] at h
  | some s =>
      simp only [applyPort] at h
      repeat' split at h
      all_goals simp_all [validationError]
      all_goals rw [← h]
      all_goals rfl

theorem applyDirection_err (ns : NodeList) (name : String) (d : Option String)
    (e : SetupError) (h : (applyDirection ns name d).2 = some e) : validationError e = false := by
  cases d with
  | none => simp [applyDirection] at h
  | some s =>
      simp only [applyDirection] at h
      repeat' split at h
      all_goals simp_all [validationError]
      all_goals rw [← h]
      all_goals rfl

theorem applyAuxiliary_err (ns : NodeList) (name : String) (b : Option Bool)
    (e : SetupError) (h : (applyAuxiliary ns name b).2 = some e) : validationError e = false := by
  cases b with
  | none => simp [applyAuxiliary] at h
  | some s => simp [applyAuxiliary] at h

theorem applyDetector1_err (ns : NodeList) (name : String) (d : Option String)
    (e : SetupError) (h : (applyDetector1 ns name d).2 = some e) : validationError e = false := by
  cases d with
  | none => simp [applyDetector1] at h
  | some s =>
      simp only [applyDetector1] at h
      repeat' split at h
      all_goals simp_all [validationError]
      all_goals rw [← h]
      all_goals rfl

theorem applyDetector2_err (ns : NodeList) (name : String) (d : Option String)
    (e : SetupError) (h : (applyDetector2 ns name d).2 = some e) : validationError e = false := by
  cases d with
  | none => simp [applyDetector2] at h
  | some s =>
      simp only [applyDetector2] at h
      repeat' split at h
      all_goals simp_all [validationError]
      all_goals rw [← h]
      all_goals rfl

theorem addRefs_keys (ns : NodeList) (es : EdgeList) (name : String)
    (t p d : Option String) (aux : Option Bool) (d1 d2 : Option String) :
    ((addRefs ns es name t p d aux d1 d2).1).map Prod.fst = ns.map Prod.fst := by
  unfold addRefs
  rcases h1 : applyTarget ns es name t with ⟨ns1, e1⟩
  have k1 : ns1.map Prod.fst = ns.map Prod.fst := by
    have := applyTarget_keys ns es name t; rw [h1] at this; exact this
  cases e1 with
  | some e => simpa using k1
  | none =>
    rcases h2 : applyPort ns1 name p with ⟨ns2, e2⟩
    have k2 : ns2.map Prod.fst = ns1.map Prod.fst := by
      have := applyPort_keys ns1 name p; rw [h2] at this; exact this
    cases e2 with
    | some e => simp [h2, k2, k1]
    | none =>
      rcases h3 : applyDirection ns2 name d with ⟨ns3, e3⟩
      have k3 : ns3.map Prod.fst = ns2.map Prod.fst := by
        have := applyDirection_keys ns2 name d; rw [h3] at this; exact this
      cases e3 with
      | some e => simp [h2, h3, k3, k2, k1]
      | none =>
        rcases h4 : applyAuxiliary ns3 name aux with ⟨ns4, e4⟩
        have k4 : ns4.map Prod.fst = ns3.map Prod.fst := by
          have := applyAuxiliary_keys ns3 name aux; rw [h4] at this; exact this
        cases e4 with
        | some e => simp [h2, h3, h4, k4, k3, k2, k1]
        | none =>
          rcases h5 : applyDetector1 ns4 name d1 with ⟨ns5, e5⟩
          have k5 : ns5.map Prod.fst = ns4.map Prod.fst := by
            have := applyDetector1_keys ns4 name d1; rw [h5] at this; exact this
          cases e5 with
          | some e => simp [h2, h3, h4, h5, k5, k4, k3, k2, k1]
          | none =>
            have k6 := applyDetector2_keys ns5 name d2
            simp [h2, h3, h4, h5, k6, k5, k4, k3, k2, k1]

theorem addRefs_err (ns : NodeList) (es : EdgeList) (name : String)
    (t p d : Option String) (aux : Option Bool) (d1 d2 : Option String) (e : SetupError)
    (h : (addRefs ns es name t p d aux d1 d2).2 = some e) : validationError e = false := by
  rcases h1 : applyTarget ns es name t with ⟨ns1, e1⟩
  cases e1 with
  | some e1' =>
      have heq : addRefs ns es name t p d aux d1 d2 = (ns1, some e1') := by
        simp only [addRefs, h1]
      rw [heq] at h
      simp at h
      exact h ▸ applyTarget_err ns es name t e1' (by rw [h1])
  | none =>
    rcases h2 : applyPort ns1 name p with ⟨ns2, e2⟩
    cases e2 with
    | some e2' =>
        have heq : addRefs ns es name t p d aux d1 d2 = (ns2, some e2') := by
          simp only [addRefs, h1, h2]
        rw [heq] at h
        simp at h
        exact h ▸ applyPort_err ns1 name p e2' (by rw [h2])
    | none =>
      rcases h3 : applyDirection ns2 name d with ⟨ns3, e3⟩
      cases e3 with
      | some e3' =>
          have heq : addRefs ns es name t p d aux d1 d2 = (ns3, some e3') := by
            simp only [addRefs, h1, h2, h3]
          rw [heq] at h
          simp at h
          exact h ▸ applyDirection_err ns2 name d e3' (by rw [h3])
      | none =>
        rcases h4 : applyAuxiliary ns3 name aux with ⟨ns4, e4⟩
        cases e4 with
        | some e4' =>
            have heq : addRefs ns es name t p d aux d1 d2 = (ns4, some e4') := by
              simp only [addRefs, h1, h2, h3, h4]
            rw [heq] at h
            simp at h
            exact h ▸ applyAuxiliary_err ns3 name aux e4' (by rw [h4])
        | none =>
          rcases h5 : applyDetector1 ns4 name d1 with ⟨ns5, e5⟩
          cases e5 with
          | some e5' =>
              have heq : addRefs ns es name t p d aux d1 d2 = (ns5, some e5') := by
                simp only [addRefs, h1, h2, h3, h4, h5]
              rw [heq] at h
              simp at h
              exact h ▸ applyDetector1_err ns4 name d1 e5' (by rw [h5])
          | none =>
              have heq : addRefs ns es name t p d aux d1 d2 = applyDetector2 ns5 name d2 := by
                simp only [addRefs, h1, h2, h3, h4, h5]
              rw [heq] at h
              exact applyDetector2_err ns5 name d2 e h

theorem addPrePass_nilProps (c : String) : addPrePass c [] = .ok [] := by
  unfold addPrePass
  split
  · simp [alookup]
  · rfl

theorem addValidate_empty (c : String) (dft : Dict) (n : String)
    (hc : default_properties c = some dft) (hn : pyIn '_' n = false) :
    addValidate c n [] = .ok dft := by
  unfold addValidate
  rw [hn]
  simp [addPrePass_nilProps c, hc, dictMerge_nil]

theorem addValidate_ok_name {c n : String} {ps props : Dict}
    (h : addValidate c n ps = .ok props) : pyIn '_' n = false := by
  unfold addValidate at h
  cases hb : pyIn '_' n with
  | true => rw [hb] at h; simp at h
  | false => rfl

theorem addValidate_ok_spec {c n : String} {ps props : Dict}
    (h : addValidate c n ps = .ok props) :
    ∃ dft, default_properties c = some dft ∧ props.map Prod.fst = dft.map Prod.fst ∧
      props.length = dft.length := by
  unfold addValidate at h
  split at h
  · cases h
  · split at h
    · cases h
    · rename_i props2 heq2
      split at h
      · cases h
      · rename_i dft hdft
        split at h
        · cases h
        · rename_i hlen
          have hlen' : (dictMerge dft props2).length = dft.length := by
            by_contra hcon
            exact hlen hcon
          have hprops : props = dictMerge dft props2 := by
            cases h; rfl
          refine ⟨dft, hdft, ?_, ?_⟩
          · rw [hprops]
            exact dictMerge_keys_of_length dft props2 hlen'
          · rw [hprops]
            exact hlen'

theorem addRefs_nones (ns : NodeList) (es : EdgeList) (name : String) :
    addRefs ns es name none none none none none none = (ns, none) := rfl

theorem addRefs_only_target (ns : NodeList) (es : EdgeList) (n : String) (tg : Option String) :
    addRefs ns es n tg none none none none none = applyTarget ns es n tg := by
  rcases h : applyTarget ns es n tg with ⟨ns1, e1⟩
  cases e1 with
  | some e => simp only [addRefs, h]
  | none => simp only [addRefs, h, applyPort, applyDirection, applyAuxiliary, applyDetector1,
      applyDetector2]

theorem addRefs_only_d1 (ns : NodeList) (es : EdgeList) (n : String) (d1 : Option String) :
    addRefs ns es n none none none none d1 none = applyDetector1 ns n d1 := by
  rcases h : applyDetector1 ns n d1 with ⟨ns5, e5⟩
  cases e5 with
  | some e => simp only [addRefs, applyTarget, applyPort, applyDirection, applyAuxiliary, h]
  | none => simp only [addRefs, applyTarget, applyPort, applyDirection, applyAuxiliary, h,
      applyDetector2]

theorem addRefs_only_d2 (ns : NodeList) (es : EdgeList) (n : String) (d2 : Option String) :
    addRefs ns es n none none none none none d2 = applyDetector2 ns n d2 := by
  simp only [addRefs, applyTarget, applyPort, applyDirection, applyAuxiliary, applyDetector1]

theorem space_state_of_err (S : Setup) (s t : String) (opt : Bool) (sp tp : String)
    (props : Dict) (e : SetupError) (h : (S.space s t opt sp tp props).2 = some e) :
    (S.space s t opt sp tp props).1 = S := by
  by_cases h1 : (alookup s S.nodes).isNone
  · simp [Setup.space, h1]
  · by_cases h2 : (alookup t S.nodes).isNone
    · simp [Setup.space, h1, h2]
    · by_cases h3 : (dictMerge ((default_properties "space").getD []) props).length ≠
          ((default_properties "space").getD []).length
      · simp [Setup.space, h1, h2, h3]
      · exfalso
        simp [Setup.space, h1, h2, h3] at h

theorem add_state_of_validation_err (S : Setup) (c n : String) (opt : Bool)
    (tg p d : Option String) (aux : Option Bool) (d1 d2 : Option String) (props : Dict)
    (e : SetupError) (h : (S.add c n opt tg p d aux d1 d2 props).2 = some e)
    (hv : validationError e = true) :
    (S.add c n opt tg p d aux d1 d2 props).1 = S := by
  cases hval : addValidate c n props with
  | error e0 => simp [Setup.add, hval]
  | ok props2 =>
      rcases href : addRefs
          (assocSet S.nodes n (NodeData.mk c props2 none none none none none none none))
          S.edges n tg p d aux d1 d2 with ⟨ns1, err⟩
      have hadd : S.add c n opt tg p d aux d1 d2 props =
          (⟨if ¬ c = "signal" ∧ ¬ c = "frequency" ∧ opt then
              S.parameters ++ props2.map (fun q => (n, q.1))
            else S.parameters, ns1, S.edges⟩, err) := by
        simp only [Setup.add, hval, href]
      rw [hadd] at h
      simp at h
      have hfalse := addRefs_err
        (assocSet S.nodes n (NodeData.mk c props2 none none none none none none none))
        S.edges n tg p d aux d1 d2 e (by rw [href, h])
      rw [hfalse] at hv
      cases hv

/-- C1, corrected.  `space` is all-or-nothing: any error leaves the state
exactly as before the call.  For `add`, the errors of the validation pre-pass
(naming, conflict, unknown component, schema mismatch, and the arithmetic
errors of the reflectivity pre-pass) are raised before any mutation, so the
state is unchanged; the claim's further assertion that unresolved-reference
and invalid-enum errors are also all-or-nothing is refuted by
`C1_counterexample`: those are raised after the node record and parameter
entries were committed. -/
theorem C1_all_or_nothing :
    (∀ (S : Setup) (s t : String) (opt : Bool) (sp tp : String) (props : Dict)
      (e : SetupError), (S.space s t opt sp tp props).2 = some e →
        (S.space s t opt sp tp props).1 = S) ∧
    (∀ (S : Setup) (c n : String) (opt : Bool) (tg p d : Option String)
      (aux : Option Bool) (d1 d2 : Option String) (props : Dict) (e : SetupError),
      (S.add c n opt tg p d aux d1 d2 props).2 = some e → validationError e = true →
        (S.add c n opt tg p d aux d1 d2 props).1 = S) :=
  ⟨space_state_of_err, add_state_of_validation_err⟩

/-- C1 counterexample: `add` with an unresolvable `target` raises
UnresolvedReferenceError but leaves the freshly committed node record and the
parameter entries of the failed call in the store — the call is not
all-or-nothing. -/
theorem C1_counterexample :
    (Setup.empty.add "laser" "d" true (some "x") none none none none none []).2 =
      some (SetupError.unresolvedReference "x") ∧
    (Setup.empty.add "laser" "d" true (some "x") none none none none none []).1 =
      ⟨[("d", "power"), ("d", "phase")],
       [("d", NodeData.mk "laser" [("power", Val.float (mkRat 1 1)), ("phase", Val.float (mkRat 0 1))]
          none none none none none none none)], []⟩ ∧
    Setup.empty.nodes = [] ∧ Setup.empty.parameters = [] := by
  refine ⟨by decide, by decide, rfl, rfl⟩

/-- C1 witness: a failing `space` on an empty setup and a failing `add` with a
naming error both leave the state untouched. -/
theorem C1_witness :
    (Setup.empty.space "a" "b" true "right" "left" []).1 = Setup.empty ∧
    (Setup.empty.add "laser" "a_b" true none none none none none none []).1 = Setup.empty :=
  ⟨C1_all_or_nothing.1 Setup.empty "a" "b" true "right" "left" []
      (SetupError.unresolvedReference "a") (by decide),
   C1_all_or_nothing.2 Setup.empty "laser" "a_b" true none none none none none none []
      (SetupError.naming "a_b") (by decide) (by decide)⟩

theorem add_empty_props_snd (S : Setup) (c : String) (dft : Dict) (n : String) (opt : Bool)
    (tg p d : Option String) (aux : Option Bool) (d1 d2 : Option String)
    (hc : default_properties c = some dft) (hn : pyIn '_' n = false) :
    (S.add c n opt tg p d aux d1 d2 []).2 =
      (addRefs (assocSet S.nodes n (NodeData.mk c dft none none none none none none none))
        S.edges n tg p d aux d1 d2).2 := by
  rcases href : addRefs
      (assocSet S.nodes n (NodeData.mk c dft none none none none none none none))
      S.edges n tg p d aux d1 d2 with ⟨ns1, err⟩
  simp only [Setup.add, addValidate_empty c dft n hc hn, href]

theorem alookup_after_store (S : Setup) (c : String) (dft : Dict) (n t : String) :
    alookup t (assocSet S.nodes n (NodeData.mk c dft none none none none none none none)) =
      if t = n then some (NodeData.mk c dft none none none none none none none)
      else alookup t S.nodes :=
  alookup_assocSet S.nodes n t _

/-- C2, corrected.  Reference resolution happens against the store *after* the
current call's node record was committed: a plain `target`, `detector1`, or
`detector2` reference succeeds exactly when it names a node added by a
strictly earlier call *or the node being added by this very call*; otherwise
the call fails with UnresolvedReferenceError.  The claim's assertion that a
reference to an entity not constructed by a strictly earlier call always
fails is refuted by the self-reference counterexample. -/
theorem C2_backward_only (S : Setup) (c : String) (dft : Dict) (n t : String)
    (hc : default_properties c = some dft) (hn : pyIn '_' n = false)
    (ht : pyIn '_' t = false) :
    ((S.add c n true (some t) none none none none none []).2 =
      if (alookup t S.nodes).isSome ∨ t = n then none
      else some (SetupError.unresolvedReference t)) ∧
    ((S.add c n true none none none none (some t) none []).2 =
      if (alookup t S.nodes).isSome ∨ t = n then none
      else some (SetupError.unresolvedReference t)) ∧
    ((S.add c n true none none none none none (some t) []).2 =
      if (alookup t S.nodes).isSome ∨ t = n then none
      else some (SetupError.unresolvedReference t)) := by
  have hstore := alookup_after_store S c dft n t
  refine ⟨?_, ?_, ?_⟩
  · rw [add_empty_props_snd S c dft n true (some t) none none none none none hc hn,
      addRefs_only_target]
    simp only [applyTarget]
    rw [if_neg (by simp [ht])]
    by_cases hmem : (alookup t S.nodes).isSome ∨ t = n
    · have hsome : (alookup t (assocSet S.nodes n
          (NodeData.mk c dft none none none none none none none))).isSome := by
        rw [hstore]
        rcases hmem with hmem | hmem
        · by_cases htn : t = n <;> simp [htn, hmem]
        · simp [hmem]
      simp [hsome, hmem]
    · push_neg at hmem
      have hnone : (alookup t (assocSet S.nodes n
          (NodeData.mk c dft none none none none none none none))).isSome = false := by
        rw [hstore, if_neg hmem.2]
        simp [Bool.not_eq_true] at hmem
        simp [hmem.1]
      simp [hnone, hmem.1, hmem.2]
  · rw [add_empty_props_snd S c dft n true none none none none (some t) none hc hn,
      addRefs_only_d1]
    simp only [applyDetector1]
    by_cases hmem : (alookup t S.nodes).isSome ∨ t = n
    · have hsome : (alookup t (assocSet S.nodes n
          (NodeData.mk c dft none none none none none none none))).isSome := by
        rw [hstore]
        rcases hmem with hmem | hmem
        · by_cases htn : t = n <;> simp [htn, hmem]
        · simp [hmem]
      simp [hsome, hmem]
    · push_neg at hmem
      have hnone : (alookup t (assocSet S.nodes n
          (NodeData.mk c dft none none none none none none none))).isSome = false := by
        rw [hstore, if_neg hmem.2]
        simp [Bool.not_eq_true] at hmem
        simp [hmem.1]
      simp [hnone, hmem.1, hmem.2]
  · rw [add_empty_props_snd S c dft n true none none none none none (some t) hc hn,
      addRefs_only_d2]
    simp only [applyDetector2]
    by_cases hmem : (alookup t S.nodes).isSome ∨ t = n
    · have hsome : (alookup t (assocSet S.nodes n
          (NodeData.mk c dft none none none none none none none))).isSome := by
        rw [hstore]
        rcases hmem with hmem | hmem
        · by_cases htn : t = n <;> simp [htn, hmem]
        · simp [hmem]
      simp [hsome, hmem]
    · push_neg at hmem
      have hnone : (alookup t (assocSet S.nodes n
          (NodeData.mk c dft none none none none none none none))).isSome = false := by
        rw [hstore, if_neg hmem.2]
        simp [Bool.not_eq_true] at hmem
        simp [hmem.1]
      simp [hnone, hmem.1, hmem.2]

/-- C2 counterexample: on an empty setup (nothing constructed by any earlier
call), `add` whose `target` names the node being added itself succeeds — it
does not raise UnresolvedReferenceError. -/
theorem C2_counterexample :
    Setup.empty.nodes = [] ∧ Setup.empty.edges = [] ∧
    (Setup.empty.add "detector" "d" true (some "d") none none none none none []).2 = none :=
  ⟨rfl, rfl, by decide⟩

/-- C2 witness: a genuinely dangling plain reference fails with
UnresolvedReferenceError on the empty setup. -/
theorem C2_witness :
    (Setup.empty.add "detector" "d" true (some "missing") none none none none none []).2 =
      if (alookup "missing" Setup.empty.nodes).isSome ∨ "missing" = "d" then none
      else some (SetupError.unresolvedReference "missing") :=
  (C2_backward_only Setup.empty "detector" [] "d" "missing" rfl (by decide) (by decide)).1

/-- C8, corrected.  When the name is legal (no separator), supplying both
reflectivity and transmissivity to a mirror/beamsplitter `add` fails with
ConflictError whatever the other arguments are, and leaves the state
untouched.  The claim's "regardless of every other argument (including the
name)" is refuted by `C8_counterexample`: the naming check runs first, so an
illegal name raises NamingError instead. -/
theorem C8_conflict (S : Setup) (c n : String) (opt : Bool) (tg p d : Option String)
    (aux : Option Bool) (d1 d2 : Option String) (props : Dict)
    (hc : c = "mirror" ∨ c = "beamsplitter") (hn : pyIn '_' n = false)
    (hr : (alookup "reflectivity" props).isSome)
    (ht : (alookup "transmissivity" props).isSome) :
    S.add c n opt tg p d aux d1 d2 props = (S, some SetupError.conflict) := by
  have hpre : addPrePass c props = .error .conflict := by
    unfold addPrePass
    rw [if_pos hc, if_pos ⟨hr, ht⟩]
  have hval : addValidate c n props = .error .conflict := by
    unfold addValidate
    rw [if_neg (by simp [hn]), hpre]
  simp [Setup.add, hval]

/-- C8 counterexample: with a separator-bearing name the same call fails with
NamingError, not ConflictError — the naming check precedes the conflict check. -/
theorem C8_counterexample :
    (Setup.empty.add "mirror" "a_b" true none none none none none none
      [("reflectivity", Val.float (mkRat 1 2)), ("transmissivity", Val.float (mkRat 3 10))]).2 =
      some (SetupError.naming "a_b") ∧
    SetupError.naming "a_b" ≠ SetupError.conflict :=
  ⟨by decide, by decide⟩

/-- C8 witness: the conflict at a concrete legal call. -/
theorem C8_witness :
    Setup.empty.add "mirror" "m" true none none none none none none
      [("reflectivity", Val.float (mkRat 1 2)), ("transmissivity", Val.float (mkRat 3 10))] =
      (Setup.empty, some SetupError.conflict) :=
  C8_conflict Setup.empty "mirror" "m" true none none none none none none
    [("reflectivity", Val.float (mkRat 1 2)), ("transmissivity", Val.float (mkRat 3 10))]
    (Or.inl rfl) (by decide) (by decide) (by decide)

theorem trans_not_in_defaults {c : String} {dft : Dict}
    (hc : default_properties c = some dft) : alookup "transmissivity" dft = none := by
  unfold default_properties at hc
  split at hc <;> first
    | (cases hc; rfl)
    | cases hc

theorem refl_in_mirror_defaults {c : String} {dft : Dict}
    (hcd : default_properties c = some dft) (hc : c = "mirror" ∨ c = "beamsplitter") :
    (alookup "reflectivity" dft).isSome := by
  rcases hc with hc | hc <;> subst hc <;>
    (simp only [default_properties, Option.some.injEq] at hcd; subst hcd; decide)

theorem addPrePass_passthrough {c : String} {props : Dict}
    (hrt : (c = "mirror" ∨ c = "beamsplitter") → alookup "reflectivity" props = none)
    (hts : alookup "transmissivity" props = none) :
    addPrePass c props = .ok props := by
  unfold addPrePass
  split
  · rename_i hc
    rw [if_neg (by simp [hrt hc, hts]), if_neg (by simp [hts]), if_neg (by simp [hrt hc])]
  · rfl

/-- C3, corrected.  (a) For every registered kind, `add` with no property
overrides succeeds and stores exactly the kind's default record.  (b) `add`
supplying only property names present in the default record succeeds with the
supplied values overriding the defaults — except that for mirror/beamsplitter
a supplied `reflectivity` is rescaled by the pre-pass, so that case is
excluded here.  (c) `add` with a property name outside the default record
fails with SchemaMismatchError — except `transmissivity`, which the
mirror/beamsplitter pre-pass accepts and converts even though it is not a
default-record key (refuted for the claim by `C3_counterexample`). -/
theorem C3_schema_closure :
    (∀ (S : Setup) (c : String) (dft : Dict) (n : String),
      default_properties c = some dft → pyIn '_' n = false →
      (S.add c n true none none none none none none []).2 = none ∧
      nodeProps (S.add c n true none none none none none none []).1 n = dft) ∧
    (∀ (S : Setup) (c : String) (dft : Dict) (n : String) (props : Dict),
      default_properties c = some dft → pyIn '_' n = false →
      (∀ q ∈ props, (alookup q.1 dft).isSome) →
      ((c = "mirror" ∨ c = "beamsplitter") → alookup "reflectivity" props = none) →
      (S.add c n true none none none none none none props).2 = none ∧
      nodeProps (S.add c n true none none none none none none props).1 n =
        dictMerge dft props ∧
      (∀ k v, alookup k props = some v →
        alookup k (dictMerge dft props) = some v)) ∧
    (∀ (S : Setup) (c : String) (dft : Dict) (n p : String) (v : Val),
      default_properties c = some dft → pyIn '_' n = false →
      alookup p dft = none → ¬ p = "transmissivity" →
      (S.add c n true none none none none none none [(p, v)]).2 =
        some (SetupError.schemaMismatch c)) := by
  refine ⟨?_, ?_, ?_⟩
  · intro S c dft n hc hn
    constructor
    · simp only [Setup.add, addValidate_empty c dft n hc hn, addRefs_nones]
    · simp only [Setup.add, addValidate_empty c dft n hc hn, addRefs_nones, nodeProps]
      rw [alookup_assocSet]
      simp
  · intro S c dft n props hc hn hsub hrefl
    have htrans : alookup "transmissivity" props = none := by
      cases hx : alookup "transmissivity" props with
      | none => rfl
      | some v =>
          have hmem := alookup_mem hx
          have := hsub _ hmem
          rw [trans_not_in_defaults hc] at this
          simp at this
    have hpre : addPrePass c props = .ok props := addPrePass_passthrough hrefl htrans
    have hval : addValidate c n props = .ok (dictMerge dft props) := by
      simp only [addValidate, if_neg (show ¬ pyIn '_' n = true by simp [hn]), hpre, hc]
      rw [if_neg (by simp [dictMerge_length_of_sub dft props hsub])]
    refine ⟨?_, ?_, ?_⟩
    · simp only [Setup.add, hval, addRefs_nones]
    · simp only [Setup.add, hval, addRefs_nones, nodeProps]
      rw [alookup_assocSet]
      simp
    · intro k v hkv
      rw [alookup_dictMerge]
      cases hd : alookup k dft with
      | some w => simp [hkv]
      | none => simp [hkv]
  · intro S c dft n p v hc hn hp hpt
    have htrans : alookup "transmissivity" [(p, v)] = none := by
      simp [alookup, hpt]
    have hrefl : (c = "mirror" ∨ c = "beamsplitter") → alookup "reflectivity" [(p, v)] = none := by
      intro hc2
      have hps : ¬ p = "reflectivity" := by
        intro hpe
        have hin := refl_in_mirror_defaults hc hc2
        rw [← hpe, hp] at hin
        simp at hin
      simp [alookup, hps]
    have hpre : addPrePass c [(p, v)] = .ok [(p, v)] := addPrePass_passthrough hrefl htrans
    have hlen : (dictMerge dft [(p, v)]).length = dft.length + 1 := by
      unfold dictMerge
      simp [List.filter, hp]
    have hval : addValidate c n [(p, v)] = .error (.schemaMismatch c) := by
      simp only [addValidate, if_neg (show ¬ pyIn '_' n = true by simp [hn]), hpre, hc]
      rw [if_pos (by omega)]
    simp [Setup.add, hval]

/-- C3 counterexample: `transmissivity` is not a key of the mirror default
record, yet `add` supplying it succeeds (the pre-pass converts it to
reflectivity) instead of failing with SchemaMismatchError. -/
theorem C3_counterexample :
    alookup "transmissivity" ((default_properties "mirror").getD []) = none ∧
    (Setup.empty.add "mirror" "m" true none none none none none none
      [("transmissivity", Val.float (mkRat 3 10))]).2 = none := by
  exact ⟨rfl, by with_unfolding_all rfl⟩

/-- C3 witness: the three amended parts at concrete calls — defaults-only add,
a known-property override, and an unknown-property schema mismatch. -/
theorem C3_witness :
    ((Setup.empty.add "laser" "l" true none none none none none none []).2 = none ∧
      nodeProps (Setup.empty.add "laser" "l" true none none none none none none []).1 "l" =
        [("power", Val.float (mkRat 1 1)), ("phase", Val.float (mkRat 0 1))]) ∧
    ((Setup.empty.add "laser" "l" true none none none none none none
        [("power", Val.float (mkRat 5 1))]).2 = none ∧
      nodeProps (Setup.empty.add "laser" "l" true none none none none none none
        [("power", Val.float (mkRat 5 1))]).1 "l" =
        dictMerge [("power", Val.float (mkRat 1 1)), ("phase", Val.float (mkRat 0 1))] [("power", Val.float (mkRat 5 1))]) ∧
    (Setup.empty.add "laser" "l" true none none none none none none
        [("bogus", Val.int 1)]).2 = some (SetupError.schemaMismatch "laser") := by
  refine ⟨C3_schema_closure.1 Setup.empty "laser" _ "l" rfl (by decide), ?_, ?_⟩
  · have h := C3_schema_closure.2.1 Setup.empty "laser"
      [("power", Val.float (mkRat 1 1)), ("phase", Val.float (mkRat 0 1))] "l" [("power", Val.float (mkRat 5 1))]
      rfl (by decide) (by decide) (fun hc => absurd hc (by decide))
    exact ⟨h.1, h.2.1⟩
  · exact C3_schema_closure.2.2 Setup.empty "laser"
      [("power", Val.float (mkRat 1 1)), ("phase", Val.float (mkRat 0 1))] "l" "bogus" (Val.int 1)
      rfl (by decide) (by decide) (by decide)

theorem addPrePass_trans_mirror (t l : ℚ) (hl : l ≠ 1) :
    addPrePass "mirror" [("transmissivity", Val.float t), ("loss", Val.float l)] =
      .ok [("loss", Val.float l), ("reflectivity", Val.float ((1 - t - l) / (1 - l))),
           ("tuning", Val.float (mkRat 0 1))] := by
  have hl' : (1 : ℚ) - l ≠ 0 := sub_ne_zero.mpr (Ne.symm hl)
  unfold addPrePass
  rw [if_pos (Or.inl rfl), if_neg (by simp [alookup]), if_pos (by simp [alookup])]
  simp [alookup, dictMerge, default_properties, valToQ, assocSet, hl']

theorem addPrePass_trans_bs (t l : ℚ) (hl : l ≠ 1) :
    addPrePass "beamsplitter" [("transmissivity", Val.float t), ("loss", Val.float l)] =
      .ok [("loss", Val.float l), ("reflectivity", Val.float ((1 - t - l) / (1 - l))),
           ("tuning", Val.float (mkRat 0 1)), ("alpha", Val.float (mkRat 45 1))] := by
  have hl' : (1 : ℚ) - l ≠ 0 := sub_ne_zero.mpr (Ne.symm hl)
  unfold addPrePass
  rw [if_pos (Or.inr rfl), if_neg (by simp [alookup]), if_pos (by simp [alookup])]
  simp [alookup, dictMerge, default_properties, valToQ, assocSet, hl']

theorem addValidate_trans_mirror (t l : ℚ) (hl : l ≠ 1) :
    addValidate "mirror" "m" [("transmissivity", Val.float t), ("loss", Val.float l)] =
      .ok [("loss", Val.float l), ("reflectivity", Val.float ((1 - t - l) / (1 - l))),
           ("tuning", Val.float (mkRat 0 1))] := by
  unfold addValidate
  rw [if_neg (by decide), addPrePass_trans_mirror t l hl]
  simp [default_properties, dictMerge, alookup]

theorem addValidate_trans_bs (t l : ℚ) (hl : l ≠ 1) :
    addValidate "beamsplitter" "m" [("transmissivity", Val.float t), ("loss", Val.float l)] =
      .ok [("loss", Val.float l), ("reflectivity", Val.float ((1 - t - l) / (1 - l))),
           ("tuning", Val.float (mkRat 0 1)), ("alpha", Val.float (mkRat 45 1))] := by
  unfold addValidate
  rw [if_neg (by decide), addPrePass_trans_bs t l hl]
  simp [default_properties, dictMerge, alookup]

/-- C4, confirmed.  Adding a mirror or beamsplitter with transmissivity `t`
and loss `l` (`l ≠ 1`) succeeds and stores reflectivity
`(1 - t - l) / (1 - l)`; the serializer's fold (`r = reflectivity * (1 - l)`,
`t = 1 - r - l`, the `mirrorRT` helper used by the mirror/beamsplitter
statement templates) applied to the stored record yields `r = 1 - t - l` and
recovers exactly the original `t` — exact over the rational arithmetic of the
embedding. -/
theorem C4_roundtrip (S : Setup) (c : String) (t l : ℚ)
    (hc : c = "mirror" ∨ c = "beamsplitter") (hl : l ≠ 1) :
    (S.add c "m" true none none none none none none
        [("transmissivity", Val.float t), ("loss", Val.float l)]).2 = none ∧
    alookup "reflectivity" (nodeProps (S.add c "m" true none none none none none none
        [("transmissivity", Val.float t), ("loss", Val.float l)]).1 "m") =
      some (Val.float ((1 - t - l) / (1 - l))) ∧
    mirrorRT (nodeProps (S.add c "m" true none none none none none none
        [("transmissivity", Val.float t), ("loss", Val.float l)]).1 "m") =
      .ok (Val.float (1 - t - l), Val.float t) := by
  have hl' : (1 : ℚ) - l ≠ 0 := sub_ne_zero.mpr (Ne.symm hl)
  rcases hc with rfl | rfl
  · have hprops : nodeProps (S.add "mirror" "m" true none none none none none none
        [("transmissivity", Val.float t), ("loss", Val.float l)]).1 "m" =
        [("loss", Val.float l), ("reflectivity", Val.float ((1 - t - l) / (1 - l))),
         ("tuning", Val.float (mkRat 0 1))] := by
      simp only [Setup.add, addValidate_trans_mirror t l hl, addRefs_nones, nodeProps]
      rw [alookup_assocSet]
      simp
    refine ⟨?_, ?_, ?_⟩
    · simp only [Setup.add, addValidate_trans_mirror t l hl, addRefs_nones]
    · rw [hprops]
      simp [alookup]
    · rw [hprops]
      simp only [mirrorRT, alookup, valSub, valMul]
      simp only [if_neg, if_pos]
      push_cast
      rw [div_mul_cancel₀ _ hl']
      norm_num
      ring
  · have hprops : nodeProps (S.add "beamsplitter" "m" true none none none none none none
        [("transmissivity", Val.float t), ("loss", Val.float l)]).1 "m" =
        [("loss", Val.float l), ("reflectivity", Val.float ((1 - t - l) / (1 - l))),
         ("tuning", Val.float (mkRat 0 1)), ("alpha", Val.float (mkRat 45 1))] := by
      simp only [Setup.add, addValidate_trans_bs t l hl, addRefs_nones, nodeProps]
      rw [alookup_assocSet]
      simp
    refine ⟨?_, ?_, ?_⟩
    · simp only [Setup.add, addValidate_trans_bs t l hl, addRefs_nones]
    · rw [hprops]
      simp [alookup]
    · rw [hprops]
      simp only [mirrorRT, alookup, valSub, valMul]
      simp only [if_neg, if_pos]
      push_cast
      rw [div_mul_cancel₀ _ hl']
      norm_num
      ring

/-- C4 witness: the round trip at `t = 3/10`, `l = 1/2`. -/
theorem C4_witness :
    (Setup.empty.add "mirror" "m" true none none none none none none
        [("transmissivity", Val.float (3 / 10)), ("loss", Val.float (1 / 2))]).2 = none ∧
    alookup "reflectivity" (nodeProps (Setup.empty.add "mirror" "m" true none none none none
        none none [("transmissivity", Val.float (3 / 10)),
        ("loss", Val.float (1 / 2))]).1 "m") =
      some (Val.float ((1 - 3 / 10 - 1 / 2) / (1 - 1 / 2))) ∧
    mirrorRT (nodeProps (Setup.empty.add "mirror" "m" true none none none none none none
        [("transmissivity", Val.float (3 / 10)), ("loss", Val.float (1 / 2))]).1 "m") =
      .ok (Val.float (1 - 3 / 10 - 1 / 2), Val.float (3 / 10)) :=
  C4_roundtrip Setup.empty "mirror" (3 / 10) (1 / 2) (Or.inl rfl) (by norm_num)

/-- C10, confirmed.  `add` accepts a `free_mass` with no `target`, a `signal`
with no `target`, and a `qnoised` with no `target`/`port`/`direction` (all
optional), but `differometor_to_finesse` on a graph containing such a node
raises an unhandled key-lookup error at that node's statement — it reads
`target` (and for qnoised then `port` and `direction`) unconditionally —
instead of emitting a statement or a warning. -/
theorem C10_serializer_partial :
    ((Setup.empty.add "free_mass" "fm" true none none none none none none []).2 = none ∧
      differometor_to_finesse
          (Setup.empty.add "free_mass" "fm" true none none none none none none []).1 =
        .error (.keyError "target")) ∧
    ((Setup.empty.add "signal" "sig" true none none none none none none []).2 = none ∧
      differometor_to_finesse
          (Setup.empty.add "signal" "sig" true none none none none none none []).1 =
        .error (.keyError "target")) ∧
    ((Setup.empty.add "qnoised" "q" true none none none none none none []).2 = none ∧
      differometor_to_finesse
          (Setup.empty.add "qnoised" "q" true none none none none none none []).1 =
        .error (.keyError "target")) ∧
    (((Setup.empty.add "mirror" "mm" true none none none none none none []).1.add
        "qnoised" "q" true (some "mm") none none none none none []).2 = none ∧
      differometor_to_finesse
          ((Setup.empty.add "mirror" "mm" true none none none none none none []).1.add
            "qnoised" "q" true (some "mm") none none none none none []).1 =
        .error (.keyError "port")) ∧
    (((Setup.empty.add "mirror" "mm" true none none none none none none []).1.add
        "qnoised" "q" true (some "mm") (some "left") none none none none []).2 = none ∧
      differometor_to_finesse
          ((Setup.empty.add "mirror" "mm" true none none none none none none []).1.add
            "qnoised" "q" true (some "mm") (some "left") none none none none []).1 =
        .error (.keyError "direction")) := by
  refine ⟨⟨?_, ?_⟩, ⟨?_, ?_⟩, ⟨?_, ?_⟩, ⟨?_, ?_⟩, ⟨?_, ?_⟩⟩ <;> with_unfolding_all rfl

/-- Cross-checks of the binary64 rounding model: each value equals the exact
integer ratio of the corresponding CPython double (`float.as_integer_ratio`). -/
theorem fl_binary64_samples :
    fl (mkRat 5 1000000) = mkRat 5902958103587057 1180591620717411303424 ∧
    fl (mkRat 1 2) = mkRat 1 2 ∧
    dsub 1 (fl (mkRat 5 1000000)) = mkRat 4503577109372359 4503599627370496 ∧
    dmul (fl (mkRat 1 2)) (dsub 1 (fl (mkRat 5 1000000))) =
      mkRat 4503577109372359 9007199254740992 ∧
    dsub (dsub 1 (mkRat 4503577109372359 9007199254740992)) (fl (mkRat 5 1000000)) =
      mkRat 9007154218744719 18014398509481984 ∧
    fl 1 = 1 ∧ fl 0 = 0 := by
  refine ⟨?_, ?_, ?_, ?_, ?_, ?_, ?_⟩ <;> with_unfolding_all rfl

/-- Cross-checks of the double `repr` model: each string equals CPython's
`repr` of the double with that integer ratio. -/
theorem pyReprD_samples :
    pyReprD (fl (mkRat 5 1000000)) = "5e-06" ∧
    pyReprD (mkRat 4503577109372359 9007199254740992) = "0.4999975" ∧
    pyReprD (mkRat 9007154218744719 18014398509481984) = "0.49999750000000004" ∧
    pyReprD (fl 1) = "1.0" ∧
    pyReprD 0 = "0.0" ∧
    pyReprD (mkRat 4503577109372359 4503599627370496) = "0.999995" ∧
    pyReprD (mkRat 3602879701896397 36028797018963968) = "0.1" ∧
    pyReprD (fl 10000000000000000) = "1e+16" ∧
    pyReprD (fl 1000000000000000) = "1000000000000000.0" ∧
    pyReprD (mkRat 8687443681197687 70368744177664) = "123.456" ∧
    pyReprD (mkRat 2833419889721787 18889465931478580854784) = "1.5e-07" ∧
    pyReprD (mkRat 7378697629483821 73786976294838206464) = "0.0001" ∧
    pyReprD (mkRat 5902958103587057 590295810358705651712) = "1e-05" ∧
    pyReprD (mkRat 5 2) = "2.5" ∧
    pyReprD (fl 100) = "100.0" ∧
    pyReprD (-(mkRat 5 2)) = "-2.5" := by
  refine ⟨?_, ?_, ?_, ?_, ?_, ?_, ?_, ?_, ?_, ?_, ?_, ?_, ?_, ?_, ?_, ?_⟩ <;>
    with_unfolding_all rfl

/-- C6 counterexample.  The toy setup's actual serialization differs from the
claim's string in two ways: floats print with a trailing `.0`
(`P=1.0 phase=0.0`, `phi=0.0`), not as bare integers, and the fold's
transmissivity carries the IEEE rounding artifact `T=0.49999750000000004` —
binary64 evaluation of `1 - 0.4999975 - 5e-6` does not give the exact
0.4999975.  Moreover a setup consisting of one `detector` node serializes to
just the blank separator line: the if/elif chain has no template for
`detector`/`qhd`, so not every node gets a statement. -/
theorem C6_counterexample :
    (runCallsOk Setup.empty toyCalls).map differometor_to_finesse_f64 =
      some (.ok ("l l0 P=1.0 phase=0.0\n" ++
        "m m1 R=0.4999975 T=0.49999750000000004 L=5e-06 phi=0.0\n" ++
        "\ns l0_m1 l0.p1 m1.p1 L=0 nr=1.0\n")) ∧
    ("l l0 P=1.0 phase=0.0\nm m1 R=0.4999975 T=0.49999750000000004 L=5e-06 phi=0.0\n" ++
        "\ns l0_m1 l0.p1 m1.p1 L=0 nr=1.0\n" : String) ≠
      ("l l0 P=1 phase=0\nm m1 R=0.4999975 T=0.4999975 L=5e-06 phi=0\n" ++
        "\ns l0_m1 l0.p1 m1.p1 L=0 nr=1.0\n") ∧
    (runCallsOk Setup.empty
        [Call.addC "detector" "d" true none none none none none none []]).map
      differometor_to_finesse_f64 = some (.ok "\n") := by
  refine ⟨?_, by decide, ?_⟩ <;> with_unfolding_all rfl

/-- C6, corrected.  The serializer emits one statement per node *of a kind
that has a template* (detector/qhd contribute none) in insertion order, a
blank line, then one statement per edge in insertion order; the toy
`laser l0` / `mirror m1` / `space l0 m1` setup with defaults serializes
exactly to the statements below, with floats printed by CPython `repr`
(shortest round-trip digits, trailing `.0`) and `R`/`T` from the loss fold
of default reflectivity 0.5 and loss 5e-6 evaluated in IEEE binary64
arithmetic, which yields `T=0.49999750000000004` rather than the exact-fold
value 0.4999975. -/
theorem C6_serialization :
    (runCallsOk Setup.empty toyCalls).map differometor_to_finesse_f64 =
      some (.ok ("l l0 P=1.0 phase=0.0\n" ++
        "m m1 R=0.4999975 T=0.49999750000000004 L=5e-06 phi=0.0\n" ++
        "\n" ++
        "s l0_m1 l0.p1 m1.p1 L=0 nr=1.0\n")) := by
  with_unfolding_all rfl

theorem runCall_params (S S' : Setup) (k : Call) (h : runCall S k = (S', none)) :
    S'.parameters = S.parameters ++ specCallParams k := by
  cases k with
  | addC c n opt tg p d aux d1 d2 props =>
      simp only [runCall] at h
      cases hval : addValidate c n props with
      | error e =>
          simp only [Setup.add, hval] at h
          injection h with h1 h2
          cases h2
      | ok props2 =>
          rcases href : addRefs
              (assocSet S.nodes n (NodeData.mk c props2 none none none none none none none))
              S.edges n tg p d aux d1 d2 with ⟨ns1, err⟩
          simp only [Setup.add, hval, href] at h
          obtain ⟨dft, hdft, hkeys, hlen⟩ := addValidate_ok_spec hval
          have hmap : props2.map (fun q => (n, q.1)) = dft.map (fun q => (n, q.1)) := by
            have h1 : props2.map (fun q => (n, q.1)) =
                (props2.map Prod.fst).map (fun k2 => (n, k2)) := by
              rw [List.map_map]; rfl
            rw [h1, hkeys, List.map_map]
            rfl
          injection h with hS hsnd
          rw [← hS]
          simp only [specCallParams, hdft, Option.getD_some]
          split
          · rw [hmap]
          · simp
  | spaceC s t opt sp tp props =>
      simp only [runCall] at h
      by_cases h1 : (alookup s S.nodes).isNone
      · simp [Setup.space, h1] at h
      · by_cases h2 : (alookup t S.nodes).isNone
        · simp [Setup.space, h1, h2] at h
        · by_cases h3 : (dictMerge ((default_properties "space").getD []) props).length ≠
              ((default_properties "space").getD []).length
          · simp [Setup.space, h1, h2, h3] at h
          · simp only [Setup.space, h1, h2, h3] at h
            have hlen : (dictMerge ((default_properties "space").getD []) props).length =
                ((default_properties "space").getD []).length := by
              by_contra hc
              exact h3 hc
            have hkeys := dictMerge_keys_of_length _ _ hlen
            have hmap : (dictMerge ((default_properties "space").getD []) props).map
                (fun q => (s ++ "_" ++ t, q.1)) =
                ((default_properties "space").getD []).map (fun q => (s ++ "_" ++ t, q.1)) := by
              have ha : (dictMerge ((default_properties "space").getD []) props).map
                  (fun q => (s ++ "_" ++ t, q.1)) =
                  ((dictMerge ((default_properties "space").getD []) props).map Prod.fst).map
                    (fun k2 => (s ++ "_" ++ t, k2)) := by
                rw [List.map_map]; rfl
              rw [ha, hkeys, List.map_map]
              rfl
            injection h with hS hsnd
            rw [← hS]
            simp only [specCallParams]
            split
            · rw [hmap]
            · simp

theorem runCallsOk_params (cs : List Call) : ∀ (S0 S' : Setup),
    runCallsOk S0 cs = some S' →
    S'.parameters = S0.parameters ++ (cs.map specCallParams).flatten := by
  induction cs with
  | nil =>
      intro S0 S' h
      simp only [runCallsOk, Option.some.injEq] at h
      rw [← h]
      simp
  | cons k rest ih =>
      intro S0 S' h
      simp only [runCallsOk] at h
      rcases hk : runCall S0 k with ⟨S1, err⟩
      rw [hk] at h
      cases err with
      | some e => simp at h
      | none =>
          have hrest := ih S1 S' h
          rw [hrest, runCall_params S0 S1 k hk]
          simp [List.flatten_cons, List.append_assoc]

/-- C5, confirmed.  After any successful call sequence from a fresh setup, the
parameter list is exactly the concatenation, in construction order, of each
call's contribution: for an optimizable `add` of a kind other than
signal/frequency, one `(name, property)` pair per schema property in schema
order; for an optimizable `space`, one `("source_target", property)` pair per
space schema property; hence its length is the sum of the per-call schema
sizes. -/
theorem C5_parameter_list (cs : List Call) (S' : Setup)
    (h : runCallsOk Setup.empty cs = some S') :
    S'.parameters = (cs.map specCallParams).flatten ∧
    S'.parameters.length = (cs.map (fun k => (specCallParams k).length)).sum := by
  have h1 := runCallsOk_params cs Setup.empty S' h
  simp only [Setup.empty, List.nil_append] at h1
  refine ⟨h1, ?_⟩
  rw [h1]
  simp only [List.length_flatten, List.map_map]
  rfl

/-- C5 witness: a concrete three-call sequence (optimizable laser, a
non-optimizable mirror, an optimizable space). -/
theorem C5_witness :
    ((runCallsOk Setup.empty
        [Call.addC "laser" "l0" true none none none none none none [],
         Call.addC "mirror" "m1" false none none none none none none [],
         Call.spaceC "l0" "m1" true "right" "left" []]).getD Setup.empty).parameters =
      ([Call.addC "laser" "l0" true none none none none none none [],
        Call.addC "mirror" "m1" false none none none none none none [],
        Call.spaceC "l0" "m1" true "right" "left" []].map specCallParams).flatten :=
  (C5_parameter_list _ _ (by with_unfolding_all rfl)).1

theorem runCall_inv (S S' : Setup) (k : Call) (h : runCall S k = (S', none))
    (h1 : (S.nodes.map Prod.fst).Nodup)
    (h2 : ∀ x ∈ S.nodes.map Prod.fst, pyIn '_' x = false)
    (h3 : (S.edges.map Prod.fst).Nodup) :
    (S'.nodes.map Prod.fst).Nodup ∧
    (∀ x ∈ S'.nodes.map Prod.fst, pyIn '_' x = false) ∧
    (S'.edges.map Prod.fst).Nodup := by
  cases k with
  | addC c n opt tg p d aux d1 d2 props =>
      simp only [runCall] at h
      cases hval : addValidate c n props with
      | error e =>
          simp only [Setup.add, hval] at h
          injection h with hx1 hx2
          cases hx2
      | ok props2 =>
          rcases href : addRefs
              (assocSet S.nodes n (NodeData.mk c props2 none none none none none none none))
              S.edges n tg p d aux d1 d2 with ⟨ns1, err⟩
          simp only [Setup.add, hval, href] at h
          injection h with hS hsnd
          rw [← hS]
          have hname : pyIn '_' n = false := addValidate_ok_name hval
          have hkeys : ns1.map Prod.fst =
              (assocSet S.nodes n
                (NodeData.mk c props2 none none none none none none none)).map Prod.fst := by
            have := addRefs_keys
              (assocSet S.nodes n (NodeData.mk c props2 none none none none none none none))
              S.edges n tg p d aux d1 d2
            rw [href] at this
            exact this
          rw [keys_assocSet] at hkeys
          by_cases hmem : (alookup n S.nodes).isSome
          · rw [if_pos hmem] at hkeys
            exact ⟨hkeys ▸ h1, hkeys ▸ h2, h3⟩
          · rw [if_neg hmem] at hkeys
            have hnotin : n ∉ S.nodes.map Prod.fst := by
              apply (alookup_eq_none S.nodes n).mp
              cases hx : alookup n S.nodes with
              | none => rfl
              | some w => rw [hx] at hmem; simp at hmem
            refine ⟨?_, ?_, h3⟩
            · rw [hkeys]
              simp [List.nodup_append, h1, hnotin]
            · rw [hkeys]
              intro x hx
              rcases List.mem_append.mp hx with hx | hx
              · exact h2 x hx
              · simp at hx
                rw [hx]
                exact hname
  | spaceC s t opt sp tp props =>
      simp only [runCall] at h
      by_cases hc1 : (alookup s S.nodes).isNone
      · simp [Setup.space, hc1] at h
      · by_cases hc2 : (alookup t S.nodes).isNone
        · simp [Setup.space, hc1, hc2] at h
        · by_cases hc3 : (dictMerge ((default_properties "space").getD []) props).length ≠
              ((default_properties "space").getD []).length
          · simp [Setup.space, hc1, hc2, hc3] at h
          · simp only [Setup.space, hc1, hc2, hc3] at h
            injection h with hS hsnd
            rw [← hS]
            refine ⟨h1, h2, ?_⟩
            have hkeys := keys_assocSet S.edges (s, t)
              (EdgeData.mk (dictMerge ((default_properties "space").getD []) props) sp tp)
            by_cases hmem : (alookup (s, t) S.edges).isSome
            · rw [if_pos hmem] at hkeys
              rw [hkeys]
              exact h3
            · rw [if_neg hmem] at hkeys
              rw [hkeys]
              have hnotin : (s, t) ∉ S.edges.map Prod.fst := by
                apply (alookup_eq_none S.edges (s, t)).mp
                cases hx : alookup (s, t) S.edges with
                | none => rfl
                | some w => rw [hx] at hmem; simp at hmem
              simp [List.nodup_append, h3, hnotin]

theorem runCallsOk_inv (cs : List Call) : ∀ (S0 S' : Setup),
    runCallsOk S0 cs = some S' →
    (S0.nodes.map Prod.fst).Nodup →
    (∀ x ∈ S0.nodes.map Prod.fst, pyIn '_' x = false) →
    (S0.edges.map Prod.fst).Nodup →
    (S'.nodes.map Prod.fst).Nodup ∧
    (∀ x ∈ S'.nodes.map Prod.fst, pyIn '_' x = false) ∧
    (S'.edges.map Prod.fst).Nodup := by
  induction cs with
  | nil =>
      intro S0 S' h h1 h2 h3
      simp only [runCallsOk, Option.some.injEq] at h
      rw [← h]
      exact ⟨h1, h2, h3⟩
  | cons k rest ih =>
      intro S0 S' h h1 h2 h3
      simp only [runCallsOk] at h
      rcases hk : runCall S0 k with ⟨S1, err⟩
      rw [hk] at h
      cases err with
      | some e => simp at h
      | none =>
          obtain ⟨g1, g2, g3⟩ := runCall_inv S0 S1 k hk h1 h2 h3
          exact ih S1 S' h g1 g2 g3

/-- C9, corrected.  After every successful call sequence from a fresh setup,
all node names are unique and free of the separator character and all edge
keys (ordered pairs) are unique — these hold because the store is a map.
The claim's further assertion that a record, once created, is never replaced
is refuted by `C9_counterexample`: `add` with an existing name (and `space`
with an existing ordered pair) silently overwrites the record in place. -/
theorem C9_invariants (cs : List Call) (S' : Setup)
    (h : runCallsOk Setup.empty cs = some S') :
    (S'.nodes.map Prod.fst).Nodup ∧
    (∀ x ∈ S'.nodes.map Prod.fst, pyIn '_' x = false) ∧
    (S'.edges.map Prod.fst).Nodup :=
  runCallsOk_inv cs Setup.empty S' h (by simp [Setup.empty]) (by simp [Setup.empty])
    (by simp [Setup.empty])

/-- C9 counterexample: a second successful `add` with the same name replaces
the stored record — the laser node "a" becomes a mirror node. -/
theorem C9_counterexample :
    (runCallsOk Setup.empty
        [Call.addC "laser" "a" true none none none none none none []]).map
        (fun S => (alookup "a" S.nodes).map NodeData.component) = some (some "laser") ∧
    (runCallsOk Setup.empty
        [Call.addC "laser" "a" true none none none none none none [],
         Call.addC "mirror" "a" true none none none none none none []]).map
        (fun S => (alookup "a" S.nodes).map NodeData.component) = some (some "mirror") := by
  constructor <;> with_unfolding_all rfl

/-- C9 witness: the invariant at a concrete successful sequence. -/
theorem C9_witness :
    ((((runCallsOk Setup.empty
        [Call.addC "laser" "l0" true none none none none none none [],
         Call.addC "mirror" "m1" true none none none none none none [],
         Call.spaceC "l0" "m1" true "right" "left" []]).getD
      Setup.empty).nodes.map Prod.fst).Nodup) :=
  (C9_invariants
    [Call.addC "laser" "l0" true none none none none none none [],
     Call.addC "mirror" "m1" true none none none none none none [],
     Call.spaceC "l0" "m1" true "right" "left" []] _ (by with_unfolding_all rfl)).1

theorem mapUpd_of_not_mem {α β : Type} [DecidableEq α] (l : List (α × β)) (k : α) (f : β → β)
    (h : k ∉ l.map Prod.fst) :
    l.map (fun p => if p.1 = k then (p.1, f p.2) else p) = l := by
  induction l with
  | nil => rfl
  | cons p rest ih =>
      simp only [List.map_cons, List.mem_cons, not_or] at h ⊢
      have hp : ¬ p.1 = k := fun hh => h.1 hh.symm
      rw [if_neg hp, ih h.2]

theorem alookup_assocAppend {α β : Type} [DecidableEq α] (l : List (α × List β)) (k k' : α)
    (b : β) :
    alookup k' (assocAppend l k b) =
      if k' = k then some ((alookup k l).getD [] ++ [b]) else alookup k' l := by
  unfold assocAppend
  split
  · rename_i hsome
    have := alookup_mapUpd l k k' (fun x => x ++ [b])
    simp only at this
    rw [this]
    by_cases hk : k' = k
    · obtain ⟨w, hw⟩ := Option.isSome_iff_exists.mp hsome
      simp [hk, hw]
    · simp [hk]
  · rename_i hnone
    rw [alookup_append]
    have hn : alookup k l = none := by
      cases hx : alookup k l with
      | none => rfl
      | some w => rw [hx] at hnone; simp at hnone
    by_cases hk : k' = k
    · rw [hk, hn]
      simp [alookup]
    · cases hx : alookup k' l with
      | none =>
          have : ¬ k = k' := fun hh => hk hh.symm
          simp [alookup, this, hk]
      | some w => simp [hk]

theorem keys_assocAppend {α β : Type} [DecidableEq α] (l : List (α × List β)) (k : α) (b : β) :
    (assocAppend l k b).map Prod.fst =
      if (alookup k l).isSome then l.map Prod.fst else l.map Prod.fst ++ [k] := by
  unfold assocAppend
  by_cases h : (alookup k l).isSome
  · rw [if_pos h, if_pos h, List.map_map]
    congr 1
    funext p
    by_cases hp : p.1 = k <;> simp [hp]
  · rw [if_neg h, if_neg h]
    simp

theorem flatten_assocAppend {α β : Type} [DecidableEq α] (l : List (α × List β)) (k : α) (b : β)
    (hnd : (l.map Prod.fst).Nodup) :
    (((assocAppend l k b).map Prod.snd).flatten : Multiset β) =
      ((l.map Prod.snd).flatten : Multiset β) + {b} := by
  unfold assocAppend
  split
  · rename_i hsome
    induction l with
    | nil => simp [alookup] at hsome
    | cons p rest ih =>
        simp only [List.map_cons, List.nodup_cons] at hnd
        by_cases hp : p.1 = k
        · have hrest : k ∉ rest.map Prod.fst := by rw [← hp]; exact hnd.1
          simp only [List.map_cons, if_pos hp]
          rw [mapUpd_of_not_mem rest k (fun x => x ++ [b]) hrest]
          simp only [List.map_cons, List.flatten_cons]
          simp only [← Multiset.coe_add, Multiset.coe_singleton]
          abel
        · simp only [alookup, hp, if_false] at hsome
          have hih := ih hnd.2 hsome
          simp only [List.map_cons, if_neg hp, List.flatten_cons]
          simp only [← Multiset.coe_add, hih]
          abel
  · simp only [List.map_append, List.flatten_append]
    simp only [← Multiset.coe_add]
    simp

theorem filter_three_split (l : List (String × String)) :
    (↑(l.filter passPair) : Multiset (String × String)) + ↑(l.filter hPat) + ↑(l.filter vPat) =
      ↑(l.filter (fun p => !droppedPair p)) := by
  induction l with
  | nil => rfl
  | cons p rest ih =>
      by_cases hlen : p.2 = "length"
      · by_cases hcb : (strContains p.1 "center" || strContains p.1 "boundary") = true
        · have hd : droppedPair p = true := by simp [droppedPair, hlen, hcb]
          have h1 : passPair p = false := by simp [passPair, hd]
          have h2 : hPat p = false := by simp [hPat, hlen, hcb]
          have h3 : vPat p = false := by simp [vPat, hlen, hcb]
          simp only [List.filter_cons, h1, h2, h3, hd, if_false, Bool.not_true,
            Bool.false_eq_true, ite_false]
          exact ih
        · by_cases hmr : (strContains p.1 "mr" && strContains p.1 "_ml") = true
          · have hd : droppedPair p = false := by simp [droppedPair, hcb]
            have hh : hPat p = true := by simp [hPat, hlen, hcb, hmr]
            have h1 : passPair p = false := by simp [passPair, hh]
            have h3 : vPat p = false := by simp [vPat, hmr]
            simp only [List.filter_cons, h1, hh, h3, hd, Bool.not_false, if_true,
              Bool.false_eq_true, ite_false, ite_true]
            simp only [← Multiset.cons_coe, ← Multiset.singleton_add]
            rw [← ih]
            abel
          · by_cases hmt : (strContains p.1 "mt" && strContains p.1 "_mb") = true
            · have hd : droppedPair p = false := by simp [droppedPair, hcb]
              have hv : vPat p = true := by simp [vPat, hlen, hcb, hmr, hmt]
              have h1 : passPair p = false := by simp [passPair, hv]
              have h2 : hPat p = false := by simp [hPat, hmr]
              simp only [List.filter_cons, h1, h2, hv, hd, Bool.not_false, if_true,
                Bool.false_eq_true, ite_false, ite_true]
              simp only [← Multiset.cons_coe, ← Multiset.singleton_add]
              rw [← ih]
              abel
            · have hd : droppedPair p = false := by simp [droppedPair, hcb]
              have h1 : passPair p = true := by simp [passPair, hd, hPat, vPat, hmr, hmt]
              have h2 : hPat p = false := by simp [hPat, hmr]
              have h3 : vPat p = false := by simp [vPat, hmt]
              simp only [List.filter_cons, h1, h2, h3, hd, Bool.not_false, if_true,
                Bool.false_eq_true, ite_false, ite_true]
              simp only [← Multiset.cons_coe, ← Multiset.singleton_add]
              rw [← ih]
              abel
      · have hd : droppedPair p = false := by simp [droppedPair, hlen]
        have h1 : passPair p = true := by simp [passPair, hd, hPat, vPat, hlen]
        have h2 : hPat p = false := by simp [hPat, hlen]
        have h3 : vPat p = false := by simp [vPat, hlen]
        simp only [List.filter_cons, h1, h2, h3, hd, Bool.not_false, if_true,
          Bool.false_eq_true, ite_false, ite_true]
        simp only [← Multiset.cons_coe, ← Multiset.singleton_add]
        rw [← ih]
        abel

theorem flat_unwrap (L : List (List (String × String))) :
    (((L.filter (fun g => ¬ g.isEmpty)).map
      (fun g => if g.length = 1 then Grouped.single (g.headD ("", "")) else Grouped.group g)).map
        Grouped.flat).flatten = L.flatten := by
  induction L with
  | nil => rfl
  | cons g rest ih =>
      by_cases hg : g.isEmpty = true
      · have hnil : g = [] := by
          cases g with
          | nil => rfl
          | cons a t => simp [List.isEmpty] at hg
        have hcond : (decide (¬ g.isEmpty = true)) = false := by simp [hg]
        simp only [List.filter_cons, hcond, if_false, Bool.false_eq_true, ite_false]
        rw [hnil, ih]
        rfl
      · have hcond : (decide (¬ g.isEmpty = true)) = true := by simp [hg]
        by_cases hlen : g.length = 1
        · obtain ⟨a, ha⟩ := List.length_eq_one.mp hlen
          simp only [List.filter_cons, hcond, if_true, List.map_cons, hlen, ite_true,
            Grouped.flat, List.flatten_cons, ih]
          rw [ha]
          rfl
        · simp only [List.filter_cons, hcond, if_true, List.map_cons, hlen, ite_false,
            Grouped.flat, List.flatten_cons, ih]

theorem flat_constrainFinish (cs : List (String × String))
    (h v : List (Char × List (String × String))) :
    ((constrainFinish cs h v).map Grouped.flat).flatten =
      cs ++ (h.map Prod.snd).flatten ++ (v.map Prod.snd).flatten := by
  unfold constrainFinish
  rw [flat_unwrap]
  simp only [List.flatten_append]
  congr 1
  · congr 1
    induction cs with
    | nil => rfl
    | cons p rest ih => simp [ih]

theorem mem_finish_single (cs : List (String × String))
    (h v : List (Char × List (String × String))) (p : String × String)
    (hp : p ∈ cs) : Grouped.single p ∈ constrainFinish cs h v := by
  unfold constrainFinish
  have h1 : [p] ∈ (cs.map (fun q => [q]) ++ h.map Prod.snd ++ v.map Prod.snd) := by
    apply List.mem_append.mpr
    left
    apply List.mem_append.mpr
    left
    exact List.mem_map.mpr ⟨p, hp, rfl⟩
  have h2 : [p] ∈ (cs.map (fun q => [q]) ++ h.map Prod.snd ++ v.map Prod.snd).filter
      (fun g => ¬ g.isEmpty) := by
    apply List.mem_filter.mpr
    exact ⟨h1, by simp⟩
  refine List.mem_map.mpr ⟨[p], h2, ?_⟩
  simp

theorem mem_finish_group (cs : List (String × String))
    (h v : List (Char × List (String × String))) (ms : List (String × String))
    (hp : ms ∈ h.map Prod.snd ∨ ms ∈ v.map Prod.snd) (hlen : 2 ≤ ms.length) :
    Grouped.group ms ∈ constrainFinish cs h v := by
  unfold constrainFinish
  have h1 : ms ∈ (cs.map (fun q => [q]) ++ h.map Prod.snd ++ v.map Prod.snd) := by
    rcases hp with hp | hp
    · exact List.mem_append.mpr (Or.inl (List.mem_append.mpr (Or.inr hp)))
    · exact List.mem_append.mpr (Or.inr hp)
  have hne : ¬ ms.isEmpty = true := by
    cases ms with
    | nil => simp at hlen
    | cons a t => simp
  have h2 : ms ∈ (cs.map (fun q => [q]) ++ h.map Prod.snd ++ v.map Prod.snd).filter
      (fun g => ¬ g.isEmpty) := List.mem_filter.mpr ⟨h1, by simpa using hne⟩
  have hlen1 : ¬ ms.length = 1 := by omega
  refine List.mem_map.mpr ⟨ms, h2, ?_⟩
  simp [hlen1]

theorem nodup_assocAppend {α β : Type} [DecidableEq α] (l : List (α × List β)) (k : α) (b : β)
    (hnd : (l.map Prod.fst).Nodup) : ((assocAppend l k b).map Prod.fst).Nodup := by
  rw [keys_assocAppend]
  by_cases hmem : (alookup k l).isSome
  · rw [if_pos hmem]; exact hnd
  · rw [if_neg hmem]
    have hnotin : k ∉ l.map Prod.fst := by
      apply (alookup_eq_none l k).mp
      cases hx : alookup k l with
      | none => rfl
      | some w => rw [hx] at hmem; simp at hmem
    simp [List.nodup_append, hnd, hnotin]

theorem constrainLoop_spec (input : List (String × String)) :
    ∀ (cs : List (String × String)) (hd vd : List (Char × List (String × String)))
      (cs' : List (String × String)) (hd' vd' : List (Char × List (String × String))),
      constrainLoop input cs hd vd = .ok (cs', hd', vd') →
      (hd.map Prod.fst).Nodup → (vd.map Prod.fst).Nodup →
      (cs' = cs ++ input.filter passPair ∧
       (∀ c, (alookup c hd').getD [] =
         (alookup c hd).getD [] ++ input.filter (fun p => hPat p && decide (hKey p = some c))) ∧
       (∀ c, (alookup c vd').getD [] =
         (alookup c vd).getD [] ++ input.filter (fun p => vPat p && decide (vKey p = some c))) ∧
       (((hd'.map Prod.snd).flatten : Multiset (String × String)) =
         ((hd.map Prod.snd).flatten : Multiset (String × String)) + ↑(input.filter hPat)) ∧
       (((vd'.map Prod.snd).flatten : Multiset (String × String)) =
         ((vd.map Prod.snd).flatten : Multiset (String × String)) + ↑(input.filter vPat))) := by
  induction input with
  | nil =>
      intro cs hd vd cs' hd' vd' heq hndh hndv
      simp only [constrainLoop, Except.ok.injEq, Prod.mk.injEq] at heq
      obtain ⟨h1, h2, h3⟩ := heq
      subst h1; subst h2; subst h3
      simp
  | cons p rest ih =>
      obtain ⟨name, prop⟩ := p
      intro cs hd vd cs' hd' vd' heq hndh hndv
      simp only [constrainLoop] at heq
      by_cases hlen : prop = "length"
      · rw [if_pos hlen] at heq
        by_cases hcb : (strContains name "center" = true ∨ strContains name "boundary" = true)
        · rw [if_pos hcb] at heq
          have hbp : passPair (name, prop) = false := by
            simp [passPair, droppedPair, hlen]
            rcases hcb with hcb | hcb <;> simp [hcb]
          have hbh : hPat (name, prop) = false := by
            simp [hPat, hlen]
            rcases hcb with hcb | hcb <;> simp [hcb]
          have hbv : vPat (name, prop) = false := by
            simp [vPat, hlen]
            rcases hcb with hcb | hcb <;> simp [hcb]
          obtain ⟨g1, g2, g3, g4, g5⟩ := ih cs hd vd cs' hd' vd' heq hndh hndv
          refine ⟨?_, ?_, ?_, ?_, ?_⟩
          · rw [g1]; simp [List.filter_cons, hbp]
          · intro c; rw [g2 c]; simp [List.filter_cons, hbh]
          · intro c; rw [g3 c]; simp [List.filter_cons, hbv]
          · rw [g4]; simp [List.filter_cons, hbh]
          · rw [g5]; simp [List.filter_cons, hbv]
        · rw [if_neg hcb] at heq
          have hcb' : (strContains name "center" || strContains name "boundary") = false := by
            cases hx : strContains name "center" with
            | false =>
                cases hy : strContains name "boundary" with
                | false => rfl
                | true => exact absurd (Or.inr hy) hcb
            | true => exact absurd (Or.inl hx) hcb
          by_cases hmr : (strContains name "mr" = true ∧ strContains name "_ml" = true)
          · rw [if_pos hmr] at heq
            have hbh : hPat (name, prop) = true := by
              simp [hPat, hlen, hcb', hmr.1, hmr.2]
            have hbp : passPair (name, prop) = false := by simp [passPair, hbh]
            have hbv : vPat (name, prop) = false := by simp [vPat, hmr.1, hmr.2]
            cases hkey : pyNegIndex ((splitU name).headD "") 1 with
            | none => rw [hkey] at heq; cases heq
            | some c0 =>
                rw [hkey] at heq
                have hkey' : hKey (name, prop) = some c0 := hkey
                obtain ⟨g1, g2, g3, g4, g5⟩ := ih cs (assocAppend hd c0 (name, prop)) vd
                  cs' hd' vd' heq (nodup_assocAppend hd c0 (name, prop) hndh) hndv
                refine ⟨?_, ?_, ?_, ?_, ?_⟩
                · rw [g1]; simp [List.filter_cons, hbp]
                · intro c
                  rw [g2 c, alookup_assocAppend]
                  by_cases hc : c = c0
                  · subst hc
                    rw [if_pos rfl]
                    simp [List.filter_cons, hbh, hkey']
                  · rw [if_neg hc]
                    have : decide (hKey (name, prop) = some c) = false := by
                      simp [hkey']
                      intro hcc
                      exact absurd hcc.symm hc
                    simp [List.filter_cons, this]
                · intro c; rw [g3 c]; simp [List.filter_cons, hbv]
                · rw [g4, flatten_assocAppend hd c0 (name, prop) hndh]
                  simp only [List.filter_cons, hbh, if_true]
                  simp only [← Multiset.cons_coe, ← Multiset.singleton_add]
                  abel
                · rw [g5]; simp [List.filter_cons, hbv]
          · rw [if_neg hmr] at heq
            have hmr' : (strContains name "mr" && strContains name "_ml") = false := by
              cases hx : strContains name "mr" with
              | false => rfl
              | true =>
                  cases hy : strContains name "_ml" with
                  | false => rfl
                  | true => exact absurd (And.intro hx hy) hmr
            by_cases hmt : (strContains name "mt" = true ∧ strContains name "_mb" = true)
            · rw [if_pos hmt] at heq
              have hbv : vPat (name, prop) = true := by
                simp [vPat, hlen, hcb', hmr', hmt.1, hmt.2]
              have hbp : passPair (name, prop) = false := by simp [passPair, hbv]
              have hbh : hPat (name, prop) = false := by simp [hPat, hmr']
              cases hkey : pyNegIndex ((splitU name).headD "") 2 with
              | none => rw [hkey] at heq; cases heq
              | some c0 =>
                  rw [hkey] at heq
                  have hkey' : vKey (name, prop) = some c0 := hkey
                  obtain ⟨g1, g2, g3, g4, g5⟩ := ih cs hd (assocAppend vd c0 (name, prop))
                    cs' hd' vd' heq hndh (nodup_assocAppend vd c0 (name, prop) hndv)
                  refine ⟨?_, ?_, ?_, ?_, ?_⟩
                  · rw [g1]; simp [List.filter_cons, hbp]
                  · intro c; rw [g2 c]; simp [List.filter_cons, hbh]
                  · intro c
                    rw [g3 c, alookup_assocAppend]
                    by_cases hc : c = c0
                    · subst hc
                      rw [if_pos rfl]
                      simp [List.filter_cons, hbv, hkey']
                    · rw [if_neg hc]
                      have : decide (vKey (name, prop) = some c) = false := by
                        simp [hkey']
                        intro hcc
                        exact absurd hcc.symm hc
                      simp [List.filter_cons, this]
                  · rw [g4]; simp [List.filter_cons, hbh]
                  · rw [g5, flatten_assocAppend vd c0 (name, prop) hndv]
                    simp only [List.filter_cons, hbv, if_true]
                    simp only [← Multiset.cons_coe, ← Multiset.singleton_add]
                    abel
            · rw [if_neg hmt] at heq
              have hmt' : (strContains name "mt" && strContains name "_mb") = false := by
                cases hx : strContains name "mt" with
                | false => rfl
                | true =>
                    cases hy : strContains name "_mb" with
                    | false => rfl
                    | true => exact absurd (And.intro hx hy) hmt
              have hbp : passPair (name, prop) = true := by
                simp [passPair, droppedPair, hPat, vPat, hlen, hcb', hmr', hmt']
              have hbh : hPat (name, prop) = false := by simp [hPat, hmr']
              have hbv : vPat (name, prop) = false := by simp [vPat, hmt']
              obtain ⟨g1, g2, g3, g4, g5⟩ := ih (cs ++ [(name, prop)]) hd vd
                cs' hd' vd' heq hndh hndv
              refine ⟨?_, ?_, ?_, ?_, ?_⟩
              · rw [g1]; simp [List.filter_cons, hbp]
              · intro c; rw [g2 c]; simp [List.filter_cons, hbh]
              · intro c; rw [g3 c]; simp [List.filter_cons, hbv]
              · rw [g4]; simp [List.filter_cons, hbh]
              · rw [g5]; simp [List.filter_cons, hbv]
      · rw [if_neg hlen] at heq
        have hbp : passPair (name, prop) = true := by
          simp [passPair, droppedPair, hPat, vPat, hlen]
        have hbh : hPat (name, prop) = false := by simp [hPat, hlen]
        have hbv : vPat (name, prop) = false := by simp [vPat, hlen]
        obtain ⟨g1, g2, g3, g4, g5⟩ := ih (cs ++ [(name, prop)]) hd vd cs' hd' vd' heq hndh hndv
        refine ⟨?_, ?_, ?_, ?_, ?_⟩
        · rw [g1]; simp [List.filter_cons, hbp]
        · intro c; rw [g2 c]; simp [List.filter_cons, hbh]
        · intro c; rw [g3 c]; simp [List.filter_cons, hbv]
        · rw [g4]; simp [List.filter_cons, hbh]
        · rw [g5]; simp [List.filter_cons, hbv]

/-- C7: the grouper of `constrain_inter_grid_cell_spaces` claims to partition the
filtered input exactly; in fact the flattened output equals the filtered input
minus the dropped center/boundary length parameters, non-length parameters always
pass (they satisfy `passPair`), pass-through parameters appear as singletons, and
the horizontal/vertical coordinate classes of size at least two appear as groups. -/
theorem C7_grouper (pairs : List (String × String)) (optimized : List String)
    (out : List Grouped)
    (hrun : constrain_inter_grid_cell_spaces pairs optimized = .ok out) :
    ((((out.map Grouped.flat).flatten : List (String × String)) : Multiset (String × String)) =
        ↑((pairs.filter (fun p => optimized.contains p.2)).filter (fun p => !droppedPair p))) ∧
    (∀ p : String × String, ¬ p.2 = "length" → passPair p = true) ∧
    (∀ p, p ∈ pairs.filter (fun p => optimized.contains p.2) → passPair p = true →
        Grouped.single p ∈ out) ∧
    (∀ c ms, ms = (pairs.filter (fun p => optimized.contains p.2)).filter
        (fun p => hPat p && decide (hKey p = some c)) → 2 ≤ ms.length →
        Grouped.group ms ∈ out) ∧
    (∀ c ms, ms = (pairs.filter (fun p => optimized.contains p.2)).filter
        (fun p => vPat p && decide (vKey p = some c)) → 2 ≤ ms.length →
        Grouped.group ms ∈ out) := by
  simp only [constrain_inter_grid_cell_spaces] at hrun
  cases hloop : constrainLoop (pairs.filter (fun p => optimized.contains p.2)) [] [] [] with
  | error e => rw [hloop] at hrun; cases hrun
  | ok res =>
      obtain ⟨cs, hd, vd⟩ := res
      rw [hloop] at hrun
      simp only [Except.ok.injEq] at hrun
      subst hrun
      obtain ⟨g1, g2, g3, g4, g5⟩ :=
        constrainLoop_spec _ [] [] [] cs hd vd hloop (by simp) (by simp)
      simp only [List.nil_append] at g1
      simp only [alookup, Option.getD_none, List.nil_append] at g2 g3
      simp only [List.map_nil, List.flatten_nil, Multiset.coe_nil, zero_add] at g4 g5
      refine ⟨?_, ?_, ?_, ?_, ?_⟩
      · rw [flat_constrainFinish]
        simp only [← Multiset.coe_add]
        rw [g1, g4, g5, filter_three_split]
      · intro p hlen
        simp [passPair, droppedPair, hPat, vPat, hlen]
      · intro p hp hpass
        apply mem_finish_single
        rw [g1]
        exact List.mem_filter.mpr ⟨hp, hpass⟩
      · intro c ms hms hlen2
        have hc := g2 c
        rw [← hms] at hc
        cases halk : alookup c hd with
        | none =>
            rw [halk] at hc
            simp at hc
            subst hc
            simp at hlen2
        | some l =>
            rw [halk] at hc
            simp at hc
            subst hc
            apply mem_finish_group
            · exact Or.inl (List.mem_map.mpr ⟨(c, l), alookup_mem halk, rfl⟩)
            · exact hlen2
      · intro c ms hms hlen2
        have hc := g3 c
        rw [← hms] at hc
        cases halk : alookup c vd with
        | none =>
            rw [halk] at hc
            simp at hc
            subst hc
            simp at hlen2
        | some l =>
            rw [halk] at hc
            simp at hc
            subst hc
            apply mem_finish_group
            · exact Or.inr (List.mem_map.mpr ⟨(c, l), alookup_mem halk, rfl⟩)
            · exact hlen2

/-- C7 counterexample: a `length` parameter of a center space survives the
optimized-properties filter but is silently dropped by the grouper: the output
is empty, so the singleton and group entries do not partition the filtered
input. -/
theorem C7_counterexample :
    constrain_inter_grid_cell_spaces [("center11_ml11", "length")] ["length"] = .ok [] := by
  with_unfolding_all rfl

/-- C7 witness: on two horizontal inter-cell lengths of column 1 plus a power
parameter, the theorem's hypotheses hold concretely and yield the group and the
singleton in the output. -/
theorem C7_witness :
    Grouped.group [("mr11_ml12", "length"), ("mr21_ml22", "length")] ∈
      [Grouped.single ("x", "power"),
       Grouped.group [("mr11_ml12", "length"), ("mr21_ml22", "length")]] ∧
    Grouped.single ("x", "power") ∈
      [Grouped.single ("x", "power"),
       Grouped.group [("mr11_ml12", "length"), ("mr21_ml22", "length")]] := by
  have h := C7_grouper [("mr11_ml12", "length"), ("mr21_ml22", "length"), ("x", "power")]
    ["length", "power"]
    [Grouped.single ("x", "power"),
     Grouped.group [("mr11_ml12", "length"), ("mr21_ml22", "length")]]
    (by with_unfolding_all rfl)
  refine ⟨h.2.2.2.1 '1' _ (by with_unfolding_all rfl) (by decide), ?_⟩
  exact h.2.2.1 ("x", "power") (by with_unfolding_all decide) (by with_unfolding_all rfl)
